import Mathlib

/-!
Shallow embedding of `src/Common/ZooKeeper/ZooKeeperWithFaultInjection.h`:
a fault-injecting decorator in front of a ZooKeeper-like coordination client.

Conventions of the embedding:
* C++ exceptions are modelled with `Except Exc`: `.error (.keeper e)` is a
  thrown `zkutil::KeeperException` carrying error code `e`, `.error .logical`
  is a thrown `DB::Exception(LOGICAL_ERROR)` (the two are distinct types in
  the source; `catch (const zkutil::KeeperException &)` blocks catch only the
  former).
* The pcg64 RNG composed with `std::bernoulli_distribution(probability)` is
  out of scope (a pluggable Bernoulli source per the spec), so it is modelled
  as an abstract stream of booleans `stream : Nat -> Bool` together with a
  cursor `pos`; `distribution(rndgen)` reads `stream pos` and advances `pos`.
* The external coordination client's visible state is the set of existing
  node paths, modelled as a `List String`; every effectful call threads it.
* Each proxy call records how many times the real client was invoked
  (`calls`) and how many log lines the proxy's failure path emitted (`logs`),
  so that "zero real calls" / "no added logging" claims are statable.
-/

set_option autoImplicit false

namespace ZkFaultInjection

/-- The `Coordination::Error` codes that the embedded fragment mentions. -/
inductive KError where
  | ZOK
  | ZSESSIONEXPIRED
  | ZOPERATIONTIMEOUT
  | ZCONNECTIONLOSS
  | ZINVALIDSTATE
  | ZSESSIONMOVED
  | ZMARSHALLINGERROR
  | ZNONODE
  | ZBADVERSION
  | ZNOTEMPTY
  | ZNODEEXISTS
  | ZNOAUTH
  deriving DecidableEq, Repr

/-- Modelled from the spec: `Coordination::isHardwareError` is declared in a
header that is not part of the given sources.  The spec's glossary defines the
hardware/connection class as the errors meaning the transport/session itself
is unusable (the session/connection/state/timeout codes), as opposed to
user-class errors such as node-not-found, version-mismatch, not-empty,
node-exists or authorization failures. -/
def isHardwareError : KError → Bool
  | .ZINVALIDSTATE => true
  | .ZSESSIONEXPIRED => true
  | .ZSESSIONMOVED => true
  | .ZCONNECTIONLOSS => true
  | .ZMARSHALLINGERROR => true
  | .ZOPERATIONTIMEOUT => true
  | _ => false

/-- A thrown C++ exception: a `zkutil::KeeperException` with its code, or a
`DB::Exception` with `ErrorCodes::LOGICAL_ERROR`. -/
inductive Exc where
  | keeper (e : KError)
  | logical
  deriving DecidableEq, Repr

instance {ε α : Type} [DecidableEq ε] [DecidableEq α] : DecidableEq (Except ε α) := fun a b =>
  match a, b with
  | .ok x, .ok y =>
    if h : x = y then .isTrue (by rw [h]) else .isFalse (by intro hc; cases hc; exact h rfl)
  | .error x, .error y =>
    if h : x = y then .isTrue (by rw [h]) else .isFalse (by intro hc; cases hc; exact h rfl)
  | .ok _, .error _ => .isFalse (by intro hc; cases hc)
  | .error _, .ok _ => .isFalse (by intro hc; cases hc)

/-- Outcome of an effectful call: the final state (mutations persist even
when an exception escapes) together with either a value or an exception. -/
abbrev MRes (σ α : Type) := Except Exc α × σ

/-- The visible state of the external coordination client: the set of paths
that currently exist, as an (duplicate-free in well-formed states) list. -/
abbrev Server := List String

/-- `zkutil::ZooKeeper::remove` as seen from this file: deletes the path,
throws `ZNONODE` when it does not exist (external client, modelled from the
spec's description of the coordination tree). -/
def serverRemove (path : String) (s : Server) : MRes Server Unit :=
  if path ∈ s then (.ok (), s.filter (fun q => q ≠ path)) else (.error (.keeper .ZNONODE), s)

/-- `class RandomFaultInjection`: two one-shot override flags plus the seeded
Bernoulli source (modelled as `stream`/`pos`, see the file comment). -/
structure RandomFaultInjection where
  must_fail_after_op : Bool
  must_fail_before_op : Bool
  stream : Nat → Bool
  pos : Nat

namespace RandomFaultInjection

/-- `RandomFaultInjection::beforeOperation`: note that in
`if (distribution(rndgen) || must_fail_before_op)` the draw is the left
operand of `||`, so it is consumed on every call. -/
def beforeOperation (f : RandomFaultInjection) : Option KError × RandomFaultInjection :=
  let draw := f.stream f.pos
  let f1 : RandomFaultInjection := { f with pos := f.pos + 1 }
  if draw || f.must_fail_before_op then
    (some .ZSESSIONEXPIRED, { f1 with must_fail_before_op := false })
  else
    (none, f1)

/-- `RandomFaultInjection::beforeOperationNoThrow`. -/
def beforeOperationNoThrow (f : RandomFaultInjection) : Bool × RandomFaultInjection :=
  let draw := f.stream f.pos
  let f1 : RandomFaultInjection := { f with pos := f.pos + 1 }
  if draw || f.must_fail_before_op then
    (true, { f1 with must_fail_before_op := false })
  else
    (false, f1)

/-- `RandomFaultInjection::afterOperation`. -/
def afterOperation (f : RandomFaultInjection) : Option KError × RandomFaultInjection :=
  let draw := f.stream f.pos
  let f1 : RandomFaultInjection := { f with pos := f.pos + 1 }
  if draw || f.must_fail_after_op then
    (some .ZOPERATIONTIMEOUT, { f1 with must_fail_after_op := false })
  else
    (none, f1)

/-- `RandomFaultInjection::afterOperationNoThrow`. -/
def afterOperationNoThrow (f : RandomFaultInjection) : Bool × RandomFaultInjection :=
  let draw := f.stream f.pos
  let f1 : RandomFaultInjection := { f with pos := f.pos + 1 }
  if draw || f.must_fail_after_op then
    (true, { f1 with must_fail_after_op := false })
  else
    (false, f1)

end RandomFaultInjection

/-- The scalar fields of `ZooKeeperWithFaultInjection` that the control flow
reads: whether `keeper` / `keeper_prev` are null pointers, the optional fault
policy (`std::unique_ptr<RandomFaultInjection>`), and whether a logger is
attached.  The `ephemeral_nodes` vector is threaded separately by the
operations that touch it. -/
structure FICore where
  keeper_null : Bool
  keeper_prev_null : Bool
  fault_policy : Option RandomFaultInjection
  logger : Bool

/-- `ZooKeeperWithFaultInjection::createInstance`: clamps the probability to
`[0,1]` and, when the clamped probability is positive, builds an instance
with an active policy (fresh `RandomFaultInjection`, `keeper_prev` null);
otherwise it uses the keeper-only constructor, which leaves both the policy
and the logger null.  The seeded Bernoulli source is abstract, so the
function takes the `stream` that the seed would determine; `randomSeed()`
replacing a zero seed only changes which stream that is. -/
def createInstance (fault_injection_probability : ℚ) (stream : Nat → Bool)
    (keeper_null : Bool) (logger : Bool) : FICore :=
  let p := if fault_injection_probability < 0 then 0
           else if fault_injection_probability > 1 then 1
           else fault_injection_probability
  if p > 0 then
    { keeper_null := keeper_null
      keeper_prev_null := true
      fault_policy := some ⟨false, false, stream, 0⟩
      logger := logger }
  else
    { keeper_null := keeper_null
      keeper_prev_null := true
      fault_policy := none
      logger := false }

/-- `ZooKeeperWithFaultInjection::faultInjectionBefore`: consult the policy
(if any); when it throws, run the cleanup and let the exception — or an
exception escaping the cleanup itself — propagate.  Returns the pending
exception, the updated policy and the state after any cleanup. -/
def faultInjectionBeforeRun {σ : Type} (p : Option RandomFaultInjection)
    (cleanup : σ → MRes σ Unit) (s : σ) :
    Option Exc × Option RandomFaultInjection × σ :=
  match p with
  | none => (none, none, s)
  | some f =>
    match f.beforeOperation with
    | (none, f1) => (none, some f1, s)
    | (some e, f1) =>
      match cleanup s with
      | (.ok _, s1) => (some (.keeper e), some f1, s1)
      | (.error x, s1) => (some x, some f1, s1)

/-- `ZooKeeperWithFaultInjection::faultInjectionAfter` (same shape as
`faultInjectionBefore`, with the after checkpoint). -/
def faultInjectionAfterRun {σ : Type} (p : Option RandomFaultInjection)
    (cleanup : σ → MRes σ Unit) (s : σ) :
    Option Exc × Option RandomFaultInjection × σ :=
  match p with
  | none => (none, none, s)
  | some f =>
    match f.afterOperation with
    | (none, f1) => (none, some f1, s)
    | (some e, f1) =>
      match cleanup s with
      | (.ok _, s1) => (some (.keeper e), some f1, s1)
      | (.error x, s1) => (some x, some f1, s1)

/-- What one `access` call produced: the C++ return value or escaped
exception, the updated scalar fields, the threaded state, the number of real
client invocations and the number of proxy log lines. -/
structure AccOut (σ α : Type) where
  result : Except Exc α
  core : FICore
  server : σ
  calls : Nat
  logs : Nat

/-- The `catch (const zkutil::KeeperException & e)` block of `access`: log
(when a logger is attached), remember `keeper` as `keeper_prev` when it is
non-null, then return `e.code` for `no_throw` instantiations, rethrow
hardware errors, and return the code otherwise. -/
def accessCatch {σ : Type} (no_throw : Bool) (c : FICore) (s : σ) (calls : Nat)
    (e : KError) : AccOut σ KError :=
  let logs := if c.logger then 1 else 0
  let c1 := if c.keeper_null then c else { c with keeper_prev_null := false }
  if no_throw then ⟨.ok e, c1, s, calls, logs⟩
  else if isHardwareError e then ⟨.error (.keeper e), c1, s, calls, logs⟩
  else ⟨.ok e, c1, s, calls, logs⟩

/-- `ZooKeeperWithFaultInjection::access` instantiated at
`Result = Coordination::Error`: null-keeper check, optional before
checkpoint, the real operation, the hardware-error early return, the
optional after checkpoint, and the catch block. -/
def accessErr {σ : Type} (no_throw inject_before inject_after : Bool) (c : FICore)
    (op : σ → MRes σ KError)
    (fault_after_op_cleanup : KError → σ → MRes σ Unit)
    (fault_before_op_cleanup : σ → MRes σ Unit)
    (s : σ) : AccOut σ KError :=
  if c.keeper_null then
    accessCatch no_throw c s 0 .ZSESSIONEXPIRED
  else
    match
      (if inject_before then faultInjectionBeforeRun c.fault_policy fault_before_op_cleanup s
       else (none, c.fault_policy, s)) with
    | (some (.keeper e), p1, s1) => accessCatch no_throw { c with fault_policy := p1 } s1 0 e
    | (some .logical, p1, s1) => ⟨.error .logical, { c with fault_policy := p1 }, s1, 0, 0⟩
    | (none, p1, s1) =>
      let c1 := { c with fault_policy := p1 }
      match op s1 with
      | (.error (.keeper e), s2) => accessCatch no_throw c1 s2 1 e
      | (.error .logical, s2) => ⟨.error .logical, c1, s2, 1, 0⟩
      | (.ok res, s2) =>
        if isHardwareError res then ⟨.ok res, c1, s2, 1, 0⟩
        else
          match
            (if inject_after then
               faultInjectionAfterRun c1.fault_policy (fault_after_op_cleanup res) s2
             else (none, c1.fault_policy, s2)) with
          | (some (.keeper e), p2, s3) => accessCatch no_throw { c1 with fault_policy := p2 } s3 1 e
          | (some .logical, p2, s3) => ⟨.error .logical, { c1 with fault_policy := p2 }, s3, 1, 0⟩
          | (none, p2, s3) => ⟨.ok res, { c1 with fault_policy := p2 }, s3, 1, 0⟩

/-- `ZooKeeperWithFaultInjection::access` instantiated at a non-`Error`
result type (including `void`, which is `α := Unit`): no hardware-error early
return, and the catch block always rethrows (the `no_throw` conversion only
exists for `Error`-returning instantiations). -/
def accessVal {σ α : Type} (inject_before inject_after : Bool) (c : FICore)
    (op : σ → MRes σ α)
    (fault_after_op_cleanup : α → σ → MRes σ Unit)
    (fault_before_op_cleanup : σ → MRes σ Unit)
    (s : σ) : AccOut σ α :=
  let excOut : FICore → σ → Nat → KError → AccOut σ α := fun c1 s1 calls e =>
    let logs := if c1.logger then 1 else 0
    let c2 := if c1.keeper_null then c1 else { c1 with keeper_prev_null := false }
    ⟨.error (.keeper e), c2, s1, calls, logs⟩
  if c.keeper_null then
    excOut c s 0 .ZSESSIONEXPIRED
  else
    match
      (if inject_before then faultInjectionBeforeRun c.fault_policy fault_before_op_cleanup s
       else (none, c.fault_policy, s)) with
    | (some (.keeper e), p1, s1) => excOut { c with fault_policy := p1 } s1 0 e
    | (some .logical, p1, s1) => ⟨.error .logical, { c with fault_policy := p1 }, s1, 0, 0⟩
    | (none, p1, s1) =>
      let c1 := { c with fault_policy := p1 }
      match op s1 with
      | (.error (.keeper e), s2) => excOut c1 s2 1 e
      | (.error .logical, s2) => ⟨.error .logical, c1, s2, 1, 0⟩
      | (.ok res, s2) =>
        match
          (if inject_after then
             faultInjectionAfterRun c1.fault_policy (fault_after_op_cleanup res) s2
           else (none, c1.fault_policy, s2)) with
        | (some (.keeper e), p2, s3) => excOut { c1 with fault_policy := p2 } s3 1 e
        | (some .logical, p2, s3) => ⟨.error .logical, { c1 with fault_policy := p2 }, s3, 1, 0⟩
        | (none, p2, s3) => ⟨.ok res, { c1 with fault_policy := p2 }, s3, 1, 0⟩

/-- A `Coordination::Request` as this file inspects it: the
`dynamic_cast<const Coordination::CreateRequest *>` succeeds exactly on the
`create` constructor, which carries the `is_ephemeral` flag and the request
path. -/
inductive Request where
  | create (path : String) (is_ephemeral : Bool)
  | other (path : String)
  deriving DecidableEq, Repr

/-- A `Coordination::Response` as this file inspects it: the
`dynamic_cast<const Coordination::CreateResponse *>` succeeds exactly on the
`create` constructor, which carries `path_created` and the error code;
`errorResp` is a `Coordination::ZooKeeperErrorResponse`. -/
inductive Response where
  | create (path_created : String) (error : KError)
  | errorResp (error : KError)
  | other
  deriving DecidableEq, Repr

/-- `Request::getPath`. -/
def Request.getPath : Request → String
  | .create p _ => p
  | .other p => p

/-- `zkutil::CreateMode` (`Persistent = 0`, `Ephemeral = 1`,
`PersistentSequential = 2`, `EphemeralSequential = 3`). -/
inductive CreateMode where
  | Persistent
  | Ephemeral
  | PersistentSequential
  | EphemeralSequential
  deriving DecidableEq, Repr

/-- `mode & 1`, i.e. the mode creates an ephemeral node. -/
def CreateMode.isEphemeral : CreateMode → Bool
  | .Ephemeral => true
  | .EphemeralSequential => true
  | _ => false

/-- Whether a request is a create with the ephemeral flag (the condition
`create_req && create_req->is_ephemeral` of the scan). -/
def isEphemeralCreate : Request → Bool
  | .create _ true => true
  | _ => false

/-- The indices collected into `create_requests` by
`doForEachCreatedEphemeralNode`: positions holding an ephemeral create. -/
def ephemeralCreateIndices (requests : List Request) : List Nat :=
  ((requests.enum).filter (fun p => isEphemeralCreate p.2)).map Prod.fst

/-- The second loop of `doForEachCreatedEphemeralNode`: for each collected
index, `responses.at(i)` must be a `CreateResponse` (else
`LOGICAL_ERROR`), and `action` is applied to its `path_created`. -/
def runCreateActions {σ : Type} (responses : List Response)
    (action : String → σ → MRes σ Unit) : List Nat → σ → MRes σ Unit
  | [], s => (.ok (), s)
  | i :: rest, s =>
    match responses.getD i (.errorResp .ZOK) with
    | .create path_created _ =>
      match action path_created s with
      | (.ok _, s1) => runCreateActions responses action rest s1
      | (.error x, s1) => (.error x, s1)
    | _ => (.error .logical, s)

/-- `ZooKeeperWithFaultInjection::doForEachCreatedEphemeralNode`: empty
responses return early; a count mismatch (with non-empty responses) is a
`LOGICAL_ERROR`; otherwise run `action` on the created path of every
ephemeral create. -/
def doForEachCreatedEphemeralNode {σ : Type} (requests : List Request)
    (responses : List Response) (action : String → σ → MRes σ Unit) (s : σ) :
    MRes σ Unit :=
  if responses.isEmpty then (.ok (), s)
  else if responses.length ≠ requests.length then (.error .logical, s)
  else runCreateActions responses action (ephemeralCreateIndices requests) s

/-- The created path found at each given index of the response batch. -/
def pathsAt (responses : List Response) (idxs : List Nat) : List String :=
  idxs.map (fun i =>
    match responses.getD i (.errorResp .ZOK) with
    | .create p _ => p
    | _ => "")

/-- The created path recorded for each ephemeral-create index (what the scan
passes to `action`, position by position). -/
def createdEphemeralPaths (requests : List Request) (responses : List Response) :
    List String :=
  pathsAt responses (ephemeralCreateIndices requests)

/-- `ZooKeeperWithFaultInjection::faultInjectionPostAction`: scan the batch
and issue `keeper->remove(path_created)` for every created ephemeral node. -/
def faultInjectionPostAction (requests : List Request) (responses : List Response)
    (s : Server) : MRes Server Unit :=
  doForEachCreatedEphemeralNode requests responses
    (fun path_created sv => serverRemove path_created sv) s

/-- What one public proxy operation produced: result/exception, scalar
fields, the tracked ephemeral paths, client state, real-client call count
and proxy log count. -/
structure OpOut (σ α : Type) where
  result : Except Exc α
  core : FICore
  eph : List String
  server : σ
  calls : Nat
  logs : Nat

/-- The code of `multi` after the `access` call returns or throws: on a
normal return, when a fault policy is attached, scan the result batch and
push every created ephemeral path onto `ephemeral_nodes` (an exception from
that scan propagates); on an exception, propagate it with the tracker
untouched. -/
def multiPost (requests : List Request) (eph : List String)
    (a : AccOut Server (List Response)) : OpOut Server (List Response) :=
  match a.result with
  | .error x => ⟨.error x, a.core, eph, a.server, a.calls, a.logs⟩
  | .ok result =>
    if a.core.fault_policy.isSome then
      match doForEachCreatedEphemeralNode requests result
          (fun path_created l => (.ok (), l ++ [path_created])) eph with
      | (.ok _, eph1) => ⟨.ok result, a.core, eph1, a.server, a.calls, a.logs⟩
      | (.error x, eph1) => ⟨.error x, a.core, eph1, a.server, a.calls, a.logs⟩
    else ⟨.ok result, a.core, eph, a.server, a.calls, a.logs⟩

/-- `ZooKeeperWithFaultInjection::multi`: run `keeper->multi(requests)`
through `access` with `faultInjectionPostAction` as the after-failure
cleanup, then the ephemeral-collection epilogue. -/
def multi (c : FICore) (requests : List Request)
    (impl : Server → MRes Server (List Response))
    (eph : List String) (s : Server) : OpOut Server (List Response) :=
  multiPost requests eph
    (accessVal true true c impl
      (fun responses sv => faultInjectionPostAction requests responses sv)
      (fun sv => (.ok (), sv)) s)

/-- The code of `tryMulti` (and `tryMultiNoThrow`) after the `access` call:
when the returned code is `ZOK` and a fault policy is attached, scan the
final `responses` and push every created ephemeral path onto
`ephemeral_nodes`; an exception from `access` propagates with the tracker
untouched. -/
def tryMultiPost (requests : List Request) (eph : List String)
    (a : AccOut (Server × List Response) KError) : OpOut (Server × List Response) KError :=
  match a.result with
  | .error x => ⟨.error x, a.core, eph, a.server, a.calls, a.logs⟩
  | .ok error =>
    if a.core.fault_policy.isSome ∧ error = .ZOK then
      match doForEachCreatedEphemeralNode requests a.server.2
          (fun path_created l => (.ok (), l ++ [path_created])) eph with
      | (.ok _, eph1) => ⟨.ok error, a.core, eph1, a.server, a.calls, a.logs⟩
      | (.error x, eph1) => ⟨.error x, a.core, eph1, a.server, a.calls, a.logs⟩
    else ⟨.ok error, a.core, eph, a.server, a.calls, a.logs⟩

/-- `ZooKeeperWithFaultInjection::tryMulti`: the state threaded through
`access` is the client state together with the `responses` out-parameter.
The before-failure cleanup fills `responses` with one `ZOPERATIONTIMEOUT`
error response per request; the after-failure cleanup runs
`faultInjectionPostAction` when the real call returned `ZOK`.  On a
non-faulted `ZOK` the created ephemeral paths are pushed onto
`ephemeral_nodes`. -/
def tryMulti (c : FICore) (requests : List Request)
    (impl : Server → MRes Server (KError × List Response))
    (eph : List String) (s : Server) (responses0 : List Response) :
    OpOut (Server × List Response) KError :=
  tryMultiPost requests eph (accessErr false true true c
    (fun sr =>
      match impl sr.1 with
      | (.ok (code, rs), sv1) => (.ok code, (sv1, rs))
      | (.error x, sv1) => (.error x, (sv1, sr.2)))
    (fun original_error sr =>
      if original_error = .ZOK then
        match faultInjectionPostAction requests sr.2 sr.1 with
        | (.ok _, sv1) => (.ok (), (sv1, sr.2))
        | (.error x, sv1) => (.error x, (sv1, sr.2))
      else (.ok (), sr))
    (fun sr =>
      (.ok (), (sr.1, List.replicate requests.length (Response.errorResp .ZOPERATIONTIMEOUT))))
    (s, responses0))

/-- The code of `tryCreate` after the `access` call: when it returned
normally, a fault policy is attached, `path_created` is non-empty and the
mode is ephemeral, push the created path onto `ephemeral_nodes`. -/
def tryCreatePost (mode : CreateMode) (eph : List String)
    (a : AccOut (Server × String) KError) : OpOut (Server × String) KError :=
  match a.result with
  | .error x => ⟨.error x, a.core, eph, a.server, a.calls, a.logs⟩
  | .ok code =>
    let eph1 :=
      if a.core.fault_policy.isSome then
        if a.server.2 ≠ "" ∧ (mode = .EphemeralSequential ∨ mode = .Ephemeral) then
          eph ++ [a.server.2]
        else eph
      else eph
    ⟨.ok code, a.core, eph1, a.server, a.calls, a.logs⟩

/-- The operation thunk of `tryCreate`: `keeper->tryCreate(path, data, mode,
path_created)` — returns the code and writes the `path_created`
out-parameter (left untouched when the call throws). -/
def tryCreateOp (path data : String) (mode : CreateMode)
    (impl : String → String → CreateMode → Server → MRes Server (KError × String))
    (sp : Server × String) : MRes (Server × String) KError :=
  match impl path data mode sp.1 with
  | (.ok (code, path_created), sv1) => (.ok code, (sv1, path_created))
  | (.error x, sv1) => (.error x, (sv1, sp.2))

/-- The after-failure cleanup of `tryCreate`: remove the created node — only
when `path_created` is non-empty and the mode is ephemeral — swallowing any
`KeeperException` the removal throws. -/
def tryCreateCleanup (mode : CreateMode) (_code : KError) (sp : Server × String) :
    MRes (Server × String) Unit :=
  if sp.2 ≠ "" ∧ (mode = .EphemeralSequential ∨ mode = .Ephemeral) then
    match serverRemove sp.2 sp.1 with
    | (.ok _, sv1) => (.ok (), (sv1, sp.2))
    | (.error (.keeper _), sv1) => (.ok (), (sv1, sp.2))
    | (.error .logical, sv1) => (.error .logical, (sv1, sp.2))
  else (.ok (), sp)

/-- `ZooKeeperWithFaultInjection::tryCreate` (4-argument form): the threaded
state is the client state together with the `path_created` out-parameter,
cleared on entry; then `access` with `tryCreateOp` / `tryCreateCleanup`,
followed by the ephemeral-collection epilogue `tryCreatePost`. -/
def tryCreate (c : FICore) (path data : String) (mode : CreateMode)
    (impl : String → String → CreateMode → Server → MRes Server (KError × String))
    (eph : List String) (s : Server) : OpOut (Server × String) KError :=
  tryCreatePost mode eph (accessErr false true true c
    (tryCreateOp path data mode impl)
    (tryCreateCleanup mode)
    (fun sp => (.ok (), sp))
    (s, ""))

/-- The loop body of `ZooKeeperWithFaultInjection::cleanupEphemeralNodes`:
for each tracked path, when `keeper_prev` is non-null, call
`keeper_prev->tryRemove(path)`; any exception is swallowed (and logged when
a logger is attached).  Returns the final client state, the list of paths on
which a remove was actually attempted, and the number of log lines. -/
def cleanupLoop (keeper_prev_null logger : Bool)
    (implTryRemove : String → Server → MRes Server KError) :
    List String → Server → Server × List String × Nat
  | [], s => (s, [], 0)
  | path :: rest, s =>
    if keeper_prev_null then cleanupLoop keeper_prev_null logger implTryRemove rest s
    else
      match implTryRemove path s with
      | (.ok _, s1) =>
        let (s2, attempted, n) := cleanupLoop keeper_prev_null logger implTryRemove rest s1
        (s2, path :: attempted, n)
      | (.error _, s1) =>
        let (s2, attempted, n) := cleanupLoop keeper_prev_null logger implTryRemove rest s1
        (s2, path :: attempted, n + (if logger then 1 else 0))

/-- `ZooKeeperWithFaultInjection::cleanupEphemeralNodes`: run the loop, then
clear `ephemeral_nodes` unconditionally.  The function is total: no failure
of an individual remove escapes. -/
def cleanupEphemeralNodes (c : FICore) (eph : List String)
    (implTryRemove : String → Server → MRes Server KError) (s : Server) :
    List String × Server × List String × Nat :=
  let (s1, attempted, n) := cleanupLoop c.keeper_prev_null c.logger implTryRemove eph s
  ([], s1, attempted, n)

/-- The state of the `std::future` an async method returns: still pending,
resolved with a value, or resolved with a stored exception (`set_exception`;
`future.get()` would rethrow it, but the async call itself returned). -/
inductive FutureState (α : Type) where
  | pending
  | value (a : α)
  | exc (e : Exc)
  deriving DecidableEq, Repr

/-- A response carrying only an error code (`ExistsResponse`, `GetResponse`,
`RemoveResponse` as far as this file inspects them). -/
structure RespE where
  error : KError
  deriving DecidableEq, Repr

/-- `Coordination::CreateResponse` as the async create path uses it: the
error code and `path_created` (default-constructed empty). -/
structure CreateResp where
  error : KError
  path_created : String
  deriving DecidableEq, Repr

/-- `ZooKeeperWithFaultInjection::injectFailureBeforeOp`: a null keeper or a
firing before-decision stores a synthetic `ZSESSIONEXPIRED` exception into
the promise.  Returns the stored exception (if any) and the updated policy;
note that with a null keeper the policy is not consulted at all. -/
def injectFailureBeforeOp (c : FICore) : Option Exc × Option RandomFaultInjection :=
  if c.keeper_null then (some (.keeper .ZSESSIONEXPIRED), c.fault_policy)
  else
    match c.fault_policy with
    | none => (none, none)
    | some f =>
      match f.beforeOperationNoThrow with
      | (true, f1) => (some (.keeper .ZSESSIONEXPIRED), some f1)
      | (false, f1) => (none, some f1)

/-- `ZooKeeperWithFaultInjection::injectFailureAfterOp`: a firing
after-decision stores a synthetic `ZOPERATIONTIMEOUT` exception. -/
def injectFailureAfterOp (p : Option RandomFaultInjection) :
    Option Exc × Option RandomFaultInjection :=
  match p with
  | none => (none, none)
  | some f =>
    match f.afterOperationNoThrow with
    | (true, f1) => (some (.keeper .ZOPERATIONTIMEOUT), some f1)
    | (false, f1) => (none, some f1)

/-- The inline before-check of the `NoThrow` async methods:
`!keeper || (fault_policy && fault_policy->beforeOperationNoThrow())` (the
policy is not consulted when the keeper is null). -/
def asyncNoThrowBeforeCheck (c : FICore) : Bool × Option RandomFaultInjection :=
  if c.keeper_null then (true, c.fault_policy)
  else
    match c.fault_policy with
    | none => (false, none)
    | some f =>
      match f.beforeOperationNoThrow with
      | (fired, f1) => (fired, some f1)

/-- `ZooKeeperWithFaultInjection::asyncExists`: synchronous before-check
(stored exception, zero client calls when it fires); otherwise issue the
request and run the completion callback, which applies the after-check and
rejects any response error outside `{ZOK, ZNONODE}`.  The continuation is
modelled as running at completion; `calls` counts real client requests. -/
def asyncExists (c : FICore) (impl : Server → RespE × Server) (s : Server) :
    FutureState RespE × FICore × Server × Nat :=
  match injectFailureBeforeOp c with
  | (some e, p1) => (.exc e, { c with fault_policy := p1 }, s, 0)
  | (none, p1) =>
    let c1 := { c with fault_policy := p1 }
    let (response, s1) := impl s
    match injectFailureAfterOp c1.fault_policy with
    | (some e, p2) => (.exc e, { c1 with fault_policy := p2 }, s1, 1)
    | (none, p2) =>
      let c2 := { c1 with fault_policy := p2 }
      if response.error ≠ .ZOK ∧ response.error ≠ .ZNONODE then
        (.exc (.keeper response.error), c2, s1, 1)
      else (.value response, c2, s1, 1)

/-- `ZooKeeperWithFaultInjection::asyncTryGet` (same shape as `asyncExists`,
whitelist `{ZOK, ZNONODE}`). -/
def asyncTryGet (c : FICore) (impl : Server → RespE × Server) (s : Server) :
    FutureState RespE × FICore × Server × Nat :=
  match injectFailureBeforeOp c with
  | (some e, p1) => (.exc e, { c with fault_policy := p1 }, s, 0)
  | (none, p1) =>
    let c1 := { c with fault_policy := p1 }
    let (response, s1) := impl s
    match injectFailureAfterOp c1.fault_policy with
    | (some e, p2) => (.exc e, { c1 with fault_policy := p2 }, s1, 1)
    | (none, p2) =>
      let c2 := { c1 with fault_policy := p2 }
      if response.error ≠ .ZOK ∧ response.error ≠ .ZNONODE then
        (.exc (.keeper response.error), c2, s1, 1)
      else (.value response, c2, s1, 1)

/-- `ZooKeeperWithFaultInjection::asyncTryRemove` (whitelist
`{ZOK, ZNONODE, ZBADVERSION, ZNOTEMPTY}`). -/
def asyncTryRemove (c : FICore) (impl : Server → RespE × Server) (s : Server) :
    FutureState RespE × FICore × Server × Nat :=
  match injectFailureBeforeOp c with
  | (some e, p1) => (.exc e, { c with fault_policy := p1 }, s, 0)
  | (none, p1) =>
    let c1 := { c with fault_policy := p1 }
    let (response, s1) := impl s
    match injectFailureAfterOp c1.fault_policy with
    | (some e, p2) => (.exc e, { c1 with fault_policy := p2 }, s1, 1)
    | (none, p2) =>
      let c2 := { c1 with fault_policy := p2 }
      if response.error ≠ .ZOK ∧ response.error ≠ .ZNONODE ∧
          response.error ≠ .ZBADVERSION ∧ response.error ≠ .ZNOTEMPTY then
        (.exc (.keeper response.error), c2, s1, 1)
      else (.value response, c2, s1, 1)

/-- `ZooKeeperWithFaultInjection::asyncTryRemoveNoThrow`: the before path and
the after path both resolve the promise with a value whose error field is the
synthetic code. -/
def asyncTryRemoveNoThrow (c : FICore) (impl : Server → RespE × Server) (s : Server) :
    FutureState RespE × FICore × Server × Nat :=
  match asyncNoThrowBeforeCheck c with
  | (true, p1) => (.value ⟨.ZSESSIONEXPIRED⟩, { c with fault_policy := p1 }, s, 0)
  | (false, p1) =>
    let c1 := { c with fault_policy := p1 }
    let (response, s1) := impl s
    match injectFailureAfterOp c1.fault_policy with
    | (some _, p2) => (.value ⟨.ZOPERATIONTIMEOUT⟩, { c1 with fault_policy := p2 }, s1, 1)
    | (none, p2) => (.value response, { c1 with fault_policy := p2 }, s1, 1)

/-- `ZooKeeperWithFaultInjection::asyncTryCreateNoThrow`. -/
def asyncTryCreateNoThrow (c : FICore) (path data : String) (mode : CreateMode)
    (impl : String → String → CreateMode → Server → CreateResp × Server) (s : Server) :
    FutureState CreateResp × FICore × Server × Nat :=
  match asyncNoThrowBeforeCheck c with
  | (true, p1) => (.value ⟨.ZSESSIONEXPIRED, ""⟩, { c with fault_policy := p1 }, s, 0)
  | (false, p1) =>
    let c1 := { c with fault_policy := p1 }
    let (response, s1) := impl path data mode s
    match injectFailureAfterOp c1.fault_policy with
    | (some _, p2) => (.value ⟨.ZOPERATIONTIMEOUT, ""⟩, { c1 with fault_policy := p2 }, s1, 1)
    | (none, p2) => (.value response, { c1 with fault_policy := p2 }, s1, 1)

/-- `ZooKeeperWithFaultInjection::asyncTryMultiNoThrow`: on a fired before
check the future resolves with `ops.size()` `ZSESSIONEXPIRED` error
responses; on a fired after check with `ops.size()` `ZOPERATIONTIMEOUT`
error responses. -/
def asyncTryMultiNoThrow (c : FICore) (ops : List Request)
    (impl : List Request → Server → List Response × Server) (s : Server) :
    FutureState (List Response) × FICore × Server × Nat :=
  match asyncNoThrowBeforeCheck c with
  | (true, p1) =>
    (.value (List.replicate ops.length (Response.errorResp .ZSESSIONEXPIRED)),
      { c with fault_policy := p1 }, s, 0)
  | (false, p1) =>
    let c1 := { c with fault_policy := p1 }
    let (response, s1) := impl ops s
    match injectFailureAfterOp c1.fault_policy with
    | (some _, p2) =>
      (.value (List.replicate ops.length (Response.errorResp .ZOPERATIONTIMEOUT)),
        { c1 with fault_policy := p2 }, s1, 1)
    | (none, p2) => (.value response, { c1 with fault_policy := p2 }, s1, 1)

/-! ### Shared concrete material for witnesses and counterexamples -/

/-- A Bernoulli stream on which no draw ever fires. -/
def streamNever : Nat → Bool := fun _ => false

/-- A Bernoulli stream on which exactly the second draw (index 1) fires:
the before checkpoint passes and the after checkpoint fires. -/
def streamSecond : Nat → Bool := fun n => n == 1

/-- A Bernoulli stream on which every draw fires. -/
def streamAlways : Nat → Bool := fun _ => true

/-- An attached, quiet (no logger) proxy core whose policy never fires. -/
def coreQuiet : FICore := ⟨false, true, some ⟨false, false, streamNever, 0⟩, false⟩

/-- A proxy core whose policy fires exactly at the after checkpoint. -/
def coreAfterFires : FICore := ⟨false, true, some ⟨false, false, streamSecond, 0⟩, false⟩

/-- A proxy core with a null keeper and an (irrelevant) active policy. -/
def coreNullKeeper : FICore := ⟨true, true, some ⟨false, false, streamNever, 0⟩, false⟩

/-- An operation thunk that throws `ZNOAUTH` — a native, non-hardware
error that is on no operation's recoverable whitelist. -/
def throwNoAuthOp : Server → MRes Server KError := fun s => (.error (.keeper .ZNOAUTH), s)

/-- A cleanup callback that does nothing (the default `{}` argument). -/
def noopAfterCleanup : KError → Server → MRes Server Unit := fun _ s => (.ok (), s)

/-- A before-failure cleanup callback that does nothing. -/
def noopBeforeCleanup : Server → MRes Server Unit := fun s => (.ok (), s)

/-- A real-client `tryMulti` that commits nothing and reports `ZOK`. -/
def emptyOkTryMulti : Server → MRes Server (KError × List Response) :=
  fun s => (.ok (.ZOK, []), s)

/-! ### C7 — fault-policy decisions and random draws -/

/-- C7 (counterexample): the claim says that when the one-shot override flag
is set, the override is consumed **instead** of a random draw and the RNG
state does not advance.  In the source the draw is the left operand of
`distribution(rndgen) || must_fail_before_op`, so it is consumed
unconditionally: on a policy with `must_fail_before_op = true` and cursor 0,
`beforeOperationNoThrow` fires and still advances the cursor to 1. -/
theorem C7_override_still_draws_counterexample :
    (RandomFaultInjection.beforeOperationNoThrow ⟨false, true, streamNever, 0⟩).1 = true ∧
    (RandomFaultInjection.beforeOperationNoThrow ⟨false, true, streamNever, 0⟩).2.pos = 1 ∧
    (⟨false, true, streamNever, 0⟩ : RandomFaultInjection).pos = 0 := by
  decide

/-- C7 (amended): every decision — `beforeOperation`, `afterOperation` and
their `NoThrow` forms — consumes exactly one random draw whether or not the
corresponding one-shot override is set (the cursor always advances by one);
the decision fires iff the draw fired or the override was set, and after the
call the corresponding override flag is always clear while the other flag
and the stream are untouched. -/
theorem C7_decision_draw_accounting (f : RandomFaultInjection) :
    f.beforeOperationNoThrow
      = ((f.stream f.pos || f.must_fail_before_op),
         ⟨f.must_fail_after_op, false, f.stream, f.pos + 1⟩) ∧
    f.beforeOperation
      = ((if f.stream f.pos || f.must_fail_before_op then some .ZSESSIONEXPIRED else none),
         ⟨f.must_fail_after_op, false, f.stream, f.pos + 1⟩) ∧
    f.afterOperationNoThrow
      = ((f.stream f.pos || f.must_fail_after_op),
         ⟨false, f.must_fail_before_op, f.stream, f.pos + 1⟩) ∧
    f.afterOperation
      = ((if f.stream f.pos || f.must_fail_after_op then some .ZOPERATIONTIMEOUT else none),
         ⟨false, f.must_fail_before_op, f.stream, f.pos + 1⟩) := by
  obtain ⟨fa, fb, st, n⟩ := f
  cases fa <;> cases fb <;>
    refine ⟨?_, ?_, ?_, ?_⟩ <;>
      simp only [RandomFaultInjection.beforeOperationNoThrow,
        RandomFaultInjection.beforeOperation,
        RandomFaultInjection.afterOperationNoThrow,
        RandomFaultInjection.afterOperation] <;>
      split <;> simp_all

/-! ### C4 — response/request count mismatch in the ephemeral scan -/

/-- C4 (counterexample): the claim says a fatal internal-consistency error is
raised for **every** pair of request and response sequences of unequal
length.  `doForEachCreatedEphemeralNode` returns early on empty responses,
so one request against zero responses (unequal lengths) raises nothing and
performs no action. -/
theorem C4_empty_responses_counterexample :
    doForEachCreatedEphemeralNode (σ := Server) [Request.create "/a" true] []
        (fun p s => serverRemove p s) ["/a"]
      = (.ok (), ["/a"]) ∧
    ([] : List Response).length ≠ [Request.create "/a" true].length := by
  decide

/-- C4 (amended): whenever the response batch is non-empty and its length
differs from the request batch's, the scan raises `LOGICAL_ERROR`
unconditionally — no action runs and the state is untouched.  (With an empty
response batch the scan returns silently instead.) -/
theorem C4_nonempty_mismatch_raises_logical {σ : Type} (requests : List Request)
    (responses : List Response) (action : String → σ → MRes σ Unit) (s : σ)
    (hne : responses ≠ [])
    (hlen : responses.length ≠ requests.length) :
    doForEachCreatedEphemeralNode requests responses action s = (.error .logical, s) := by
  unfold doForEachCreatedEphemeralNode
  rw [if_neg (by simpa [List.isEmpty_iff] using hne), if_pos hlen]

/-- C4 (witness): the amended theorem applied to two error responses against
one request. -/
theorem C4_nonempty_mismatch_witness :
    ([Response.errorResp KError.ZOK, Response.other] : List Response) ≠ [] ∧
    ([Response.errorResp KError.ZOK, Response.other] : List Response).length
      ≠ [Request.create "/a" true].length ∧
    doForEachCreatedEphemeralNode (σ := Server) [Request.create "/a" true]
        [Response.errorResp KError.ZOK, Response.other]
        (fun p s => serverRemove p s) ["/a"]
      = (.error .logical, ["/a"]) :=
  ⟨by decide, by decide,
    C4_nonempty_mismatch_raises_logical [Request.create "/a" true]
      [Response.errorResp KError.ZOK, Response.other]
      (fun p s => serverRemove p s) ["/a"] (by decide) (by decide)⟩

/-! ### C9 — ephemeral flush -/

/-- The attempted-delete trace of `cleanupLoop`: every tracked path when
`keeper_prev` is non-null, nothing otherwise. -/
theorem cleanupLoop_attempted (keeper_prev_null logger : Bool)
    (implTryRemove : String → Server → MRes Server KError)
    (eph : List String) (s : Server) :
    (cleanupLoop keeper_prev_null logger implTryRemove eph s).2.1
      = if keeper_prev_null then [] else eph := by
  cases keeper_prev_null with
  | true =>
    induction eph generalizing s with
    | nil => simp [cleanupLoop]
    | cons path rest ih => simpa [cleanupLoop] using ih s
  | false =>
    induction eph generalizing s with
    | nil => simp [cleanupLoop]
    | cons path rest ih =>
      rcases himpl : implTryRemove path s with ⟨res, s1⟩
      have h2 := ih s1
      rcases h3 : cleanupLoop false logger implTryRemove rest s1 with ⟨s2, att, n⟩
      rw [h3] at h2
      cases res <;> simp [cleanupLoop, himpl, h3] <;> simpa using h2

/-- C9 (confirmed): `cleanupEphemeralNodes` empties the tracked set
unconditionally; when `keeper_prev` is non-null it attempts one
`tryRemove` against it per tracked path, in order, and when `keeper_prev`
is null no delete is attempted at all.  The statement is quantified over
every client behaviour `implTryRemove`, including ones that throw on every
call, so no individual delete failure ever escalates: the flush always
returns normally with the set cleared. -/
theorem C9_flush_best_effort_and_unconditional_clear (c : FICore)
    (eph : List String) (implTryRemove : String → Server → MRes Server KError)
    (s : Server) :
    (cleanupEphemeralNodes c eph implTryRemove s).1 = [] ∧
    (cleanupEphemeralNodes c eph implTryRemove s).2.2.1
      = (if c.keeper_prev_null then [] else eph) := by
  unfold cleanupEphemeralNodes
  rcases h : cleanupLoop c.keeper_prev_null c.logger implTryRemove eph s with ⟨s1, att, n⟩
  refine ⟨rfl, ?_⟩
  have := cleanupLoop_attempted c.keeper_prev_null c.logger implTryRemove eph s
  rw [h] at this
  simpa using this

/-! ### Evaluation lemmas for the fault-policy calls and the `access` paths
(shared helpers used by several claims) -/

theorem beforeOperation_pass (f : RandomFaultInjection)
    (hd : f.stream f.pos = false) (hfl : f.must_fail_before_op = false) :
    f.beforeOperation = (none, { f with pos := f.pos + 1 }) := by
  simp [RandomFaultInjection.beforeOperation, hd, hfl]

theorem beforeOperation_fire (f : RandomFaultInjection)
    (hfi : (f.stream f.pos || f.must_fail_before_op) = true) :
    f.beforeOperation
      = (some .ZSESSIONEXPIRED, ⟨f.must_fail_after_op, false, f.stream, f.pos + 1⟩) := by
  simp [RandomFaultInjection.beforeOperation, hfi]

theorem afterOperation_pass (f : RandomFaultInjection)
    (hd : f.stream f.pos = false) (hfl : f.must_fail_after_op = false) :
    f.afterOperation = (none, { f with pos := f.pos + 1 }) := by
  simp [RandomFaultInjection.afterOperation, hd, hfl]

theorem afterOperation_fire (f : RandomFaultInjection)
    (hfi : (f.stream f.pos || f.must_fail_after_op) = true) :
    f.afterOperation
      = (some .ZOPERATIONTIMEOUT, ⟨false, f.must_fail_before_op, f.stream, f.pos + 1⟩) := by
  simp [RandomFaultInjection.afterOperation, hfi]

theorem beforeOperationNoThrow_fire (f : RandomFaultInjection)
    (hfi : (f.stream f.pos || f.must_fail_before_op) = true) :
    f.beforeOperationNoThrow
      = (true, ⟨f.must_fail_after_op, false, f.stream, f.pos + 1⟩) := by
  simp [RandomFaultInjection.beforeOperationNoThrow, hfi]

theorem fiBeforeRun_pass {σ : Type} (f : RandomFaultInjection)
    (bcl : σ → MRes σ Unit) (s : σ)
    (hd : f.stream f.pos = false) (hfl : f.must_fail_before_op = false) :
    faultInjectionBeforeRun (some f) bcl s
      = (none, some { f with pos := f.pos + 1 }, s) := by
  simp [faultInjectionBeforeRun, beforeOperation_pass f hd hfl]

theorem fiBeforeRun_fire {σ : Type} (f : RandomFaultInjection)
    (bcl : σ → MRes σ Unit) (s s1 : σ)
    (hfi : (f.stream f.pos || f.must_fail_before_op) = true)
    (hbcl : bcl s = (.ok (), s1)) :
    faultInjectionBeforeRun (some f) bcl s
      = (some (.keeper .ZSESSIONEXPIRED),
         some ⟨f.must_fail_after_op, false, f.stream, f.pos + 1⟩, s1) := by
  simp [faultInjectionBeforeRun, beforeOperation_fire f hfi, hbcl]

theorem fiAfterRun_pass {σ : Type} (f : RandomFaultInjection)
    (cl : σ → MRes σ Unit) (s : σ)
    (hd : f.stream f.pos = false) (hfl : f.must_fail_after_op = false) :
    faultInjectionAfterRun (some f) cl s
      = (none, some { f with pos := f.pos + 1 }, s) := by
  simp [faultInjectionAfterRun, afterOperation_pass f hd hfl]

theorem fiAfterRun_fire {σ : Type} (f : RandomFaultInjection)
    (cl : σ → MRes σ Unit) (s s1 : σ)
    (hfi : (f.stream f.pos || f.must_fail_after_op) = true)
    (hcl : cl s = (.ok (), s1)) :
    faultInjectionAfterRun (some f) cl s
      = (some (.keeper .ZOPERATIONTIMEOUT),
         some ⟨false, f.must_fail_before_op, f.stream, f.pos + 1⟩, s1) := by
  simp [faultInjectionAfterRun, afterOperation_fire f hfi, hcl]

theorem FICore_eta_none (c : FICore) (hp : c.fault_policy = none) :
    ({ c with fault_policy := none } : FICore) = c := by
  cases c
  simp_all

theorem accessErr_null {σ : Type} (no_throw inject_before inject_after : Bool)
    (c : FICore) (op : σ → MRes σ KError)
    (acl : KError → σ → MRes σ Unit) (bcl : σ → MRes σ Unit) (s : σ)
    (hk : c.keeper_null = true) :
    accessErr no_throw inject_before inject_after c op acl bcl s
      = ⟨if no_throw then .ok .ZSESSIONEXPIRED else .error (.keeper .ZSESSIONEXPIRED),
         c, s, 0, if c.logger then 1 else 0⟩ := by
  cases no_throw <;>
    simp [accessErr, accessCatch, hk,
      show isHardwareError .ZSESSIONEXPIRED = true from rfl]

theorem accessVal_null {σ α : Type} (inject_before inject_after : Bool)
    (c : FICore) (op : σ → MRes σ α)
    (acl : α → σ → MRes σ Unit) (bcl : σ → MRes σ Unit) (s : σ)
    (hk : c.keeper_null = true) :
    accessVal inject_before inject_after c op acl bcl s
      = ⟨.error (.keeper .ZSESSIONEXPIRED), c, s, 0, if c.logger then 1 else 0⟩ := by
  simp [accessVal, hk]

theorem accessErr_before_fire {σ : Type} (no_throw inject_after : Bool)
    (c : FICore) (f : RandomFaultInjection) (op : σ → MRes σ KError)
    (acl : KError → σ → MRes σ Unit) (bcl : σ → MRes σ Unit) (s s1 : σ)
    (hk : c.keeper_null = false) (hp : c.fault_policy = some f)
    (hfi : (f.stream f.pos || f.must_fail_before_op) = true)
    (hbcl : bcl s = (.ok (), s1)) :
    accessErr no_throw true inject_after c op acl bcl s
      = ⟨if no_throw then .ok .ZSESSIONEXPIRED else .error (.keeper .ZSESSIONEXPIRED),
         { c with fault_policy := some ⟨f.must_fail_after_op, false, f.stream, f.pos + 1⟩,
                  keeper_prev_null := false },
         s1, 0, if c.logger then 1 else 0⟩ := by
  cases no_throw <;>
    simp [accessErr, accessCatch, hk, hp, fiBeforeRun_fire f bcl s s1 hfi hbcl,
      show isHardwareError .ZSESSIONEXPIRED = true from rfl]

theorem accessVal_before_fire {σ α : Type} (inject_after : Bool)
    (c : FICore) (f : RandomFaultInjection) (op : σ → MRes σ α)
    (acl : α → σ → MRes σ Unit) (bcl : σ → MRes σ Unit) (s s1 : σ)
    (hk : c.keeper_null = false) (hp : c.fault_policy = some f)
    (hfi : (f.stream f.pos || f.must_fail_before_op) = true)
    (hbcl : bcl s = (.ok (), s1)) :
    accessVal true inject_after c op acl bcl s
      = ⟨.error (.keeper .ZSESSIONEXPIRED),
         { c with fault_policy := some ⟨f.must_fail_after_op, false, f.stream, f.pos + 1⟩,
                  keeper_prev_null := false },
         s1, 0, if c.logger then 1 else 0⟩ := by
  simp [accessVal, hk, hp, fiBeforeRun_fire f bcl s s1 hfi hbcl]

theorem accessErr_hw_result {σ : Type} (no_throw inject_after : Bool)
    (c : FICore) (f : RandomFaultInjection) (op : σ → MRes σ KError)
    (acl : KError → σ → MRes σ Unit) (bcl : σ → MRes σ Unit) (s s2 : σ) (res : KError)
    (hk : c.keeper_null = false) (hp : c.fault_policy = some f)
    (hd : f.stream f.pos = false) (hfl : f.must_fail_before_op = false)
    (hop : op s = (.ok res, s2)) (hhw : isHardwareError res = true) :
    accessErr no_throw true inject_after c op acl bcl s
      = ⟨.ok res, { c with fault_policy := some { f with pos := f.pos + 1 } }, s2, 1, 0⟩ := by
  simp [accessErr, hk, hp, fiBeforeRun_pass f bcl s hd hfl, hop, hhw]

theorem accessErr_after_fire {σ : Type} (no_throw : Bool)
    (c : FICore) (f : RandomFaultInjection) (op : σ → MRes σ KError)
    (acl : KError → σ → MRes σ Unit) (bcl : σ → MRes σ Unit) (s s2 s3 : σ) (res : KError)
    (hk : c.keeper_null = false) (hp : c.fault_policy = some f)
    (hd : f.stream f.pos = false) (hfl : f.must_fail_before_op = false)
    (hop : op s = (.ok res, s2)) (hhw : isHardwareError res = false)
    (hfi : (f.stream (f.pos + 1) || f.must_fail_after_op) = true)
    (hacl : acl res s2 = (.ok (), s3)) :
    accessErr no_throw true true c op acl bcl s
      = ⟨if no_throw then .ok .ZOPERATIONTIMEOUT else .error (.keeper .ZOPERATIONTIMEOUT),
         { c with fault_policy := some ⟨false, false, f.stream, f.pos + 1 + 1⟩,
                  keeper_prev_null := false },
         s3, 1, if c.logger then 1 else 0⟩ := by
  have h1 : faultInjectionAfterRun (some ({ f with pos := f.pos + 1 } : RandomFaultInjection))
      (acl res) s2
      = (some (.keeper .ZOPERATIONTIMEOUT), some ⟨false, false, f.stream, f.pos + 1 + 1⟩, s3) := by
    have h0 := fiAfterRun_fire ({ f with pos := f.pos + 1 } : RandomFaultInjection)
      (acl res) s2 s3 (by simpa using hfi) hacl
    simpa [hfl] using h0
  cases no_throw <;>
    simp [accessErr, accessCatch, hk, hp, fiBeforeRun_pass f bcl s hd hfl, hop, hhw, h1,
      show isHardwareError .ZOPERATIONTIMEOUT = true from rfl]

theorem accessErr_after_pass {σ : Type} (no_throw : Bool)
    (c : FICore) (f : RandomFaultInjection) (op : σ → MRes σ KError)
    (acl : KError → σ → MRes σ Unit) (bcl : σ → MRes σ Unit) (s s2 : σ) (res : KError)
    (hk : c.keeper_null = false) (hp : c.fault_policy = some f)
    (hd : f.stream f.pos = false) (hfl : f.must_fail_before_op = false)
    (hop : op s = (.ok res, s2)) (hhw : isHardwareError res = false)
    (hd2 : f.stream (f.pos + 1) = false) (hfl2 : f.must_fail_after_op = false) :
    accessErr no_throw true true c op acl bcl s
      = ⟨.ok res, { c with fault_policy := some { f with pos := f.pos + 1 + 1 } }, s2, 1, 0⟩ := by
  have h1 : faultInjectionAfterRun (some ({ f with pos := f.pos + 1 } : RandomFaultInjection))
      (acl res) s2
      = (none, some { f with pos := f.pos + 1 + 1 }, s2) := by
    have h0 := fiAfterRun_pass ({ f with pos := f.pos + 1 } : RandomFaultInjection)
      (acl res) s2 (by simpa using hd2) (by simpa using hfl2)
    simpa using h0
  simp [accessErr, hk, hp, fiBeforeRun_pass f bcl s hd hfl, hop, hhw, h1]

theorem accessErr_op_throws {σ : Type} (no_throw inject_after : Bool)
    (c : FICore) (f : RandomFaultInjection) (op : σ → MRes σ KError)
    (acl : KError → σ → MRes σ Unit) (bcl : σ → MRes σ Unit) (s s2 : σ) (e : KError)
    (hk : c.keeper_null = false) (hp : c.fault_policy = some f)
    (hd : f.stream f.pos = false) (hfl : f.must_fail_before_op = false)
    (hop : op s = (.error (.keeper e), s2)) :
    accessErr no_throw true inject_after c op acl bcl s
      = ⟨if no_throw then .ok e else if isHardwareError e then .error (.keeper e) else .ok e,
         { c with fault_policy := some { f with pos := f.pos + 1 }, keeper_prev_null := false },
         s2, 1, if c.logger then 1 else 0⟩ := by
  cases no_throw <;> cases hhw : isHardwareError e <;>
    simp [accessErr, accessCatch, hk, hp, fiBeforeRun_pass f bcl s hd hfl, hop, hhw]

theorem accessVal_after_fire {σ α : Type}
    (c : FICore) (f : RandomFaultInjection) (op : σ → MRes σ α)
    (acl : α → σ → MRes σ Unit) (bcl : σ → MRes σ Unit) (s s2 s3 : σ) (res : α)
    (hk : c.keeper_null = false) (hp : c.fault_policy = some f)
    (hd : f.stream f.pos = false) (hfl : f.must_fail_before_op = false)
    (hop : op s = (.ok res, s2))
    (hfi : (f.stream (f.pos + 1) || f.must_fail_after_op) = true)
    (hacl : acl res s2 = (.ok (), s3)) :
    accessVal true true c op acl bcl s
      = ⟨.error (.keeper .ZOPERATIONTIMEOUT),
         { c with fault_policy := some ⟨false, false, f.stream, f.pos + 1 + 1⟩,
                  keeper_prev_null := false },
         s3, 1, if c.logger then 1 else 0⟩ := by
  have h1 : faultInjectionAfterRun (some ({ f with pos := f.pos + 1 } : RandomFaultInjection))
      (acl res) s2
      = (some (.keeper .ZOPERATIONTIMEOUT), some ⟨false, false, f.stream, f.pos + 1 + 1⟩, s3) := by
    have h0 := fiAfterRun_fire ({ f with pos := f.pos + 1 } : RandomFaultInjection)
      (acl res) s2 s3 (by simpa using hfi) hacl
    simpa [hfl] using h0
  simp [accessVal, hk, hp, fiBeforeRun_pass f bcl s hd hfl, hop, h1]

theorem accessErr_none_ok {σ : Type} (no_throw inject_before inject_after : Bool)
    (c : FICore) (op : σ → MRes σ KError)
    (acl : KError → σ → MRes σ Unit) (bcl : σ → MRes σ Unit) (s s2 : σ) (res : KError)
    (hk : c.keeper_null = false) (hp : c.fault_policy = none)
    (hop : op s = (.ok res, s2)) :
    accessErr no_throw inject_before inject_after c op acl bcl s = ⟨.ok res, c, s2, 1, 0⟩ := by
  obtain ⟨kn, kpn, fp, lg⟩ := c
  subst hk
  subst hp
  cases hh : isHardwareError res <;> cases inject_before <;> cases inject_after <;>
    simp [accessErr, faultInjectionBeforeRun, faultInjectionAfterRun, hop, hh]

theorem accessErr_none_throws {σ : Type} (no_throw inject_before inject_after : Bool)
    (c : FICore) (op : σ → MRes σ KError)
    (acl : KError → σ → MRes σ Unit) (bcl : σ → MRes σ Unit) (s s2 : σ) (e : KError)
    (hk : c.keeper_null = false) (hp : c.fault_policy = none)
    (hop : op s = (.error (.keeper e), s2)) :
    accessErr no_throw inject_before inject_after c op acl bcl s
      = ⟨if no_throw then .ok e else if isHardwareError e then .error (.keeper e) else .ok e,
         { c with keeper_prev_null := false }, s2, 1, if c.logger then 1 else 0⟩ := by
  obtain ⟨kn, kpn, fp, lg⟩ := c
  subst hk
  subst hp
  cases no_throw <;> cases hhw : isHardwareError e <;> cases inject_before <;> cases inject_after <;>
    simp [accessErr, accessCatch, faultInjectionBeforeRun, hop, hhw]

theorem accessVal_none_ok {σ α : Type} (inject_before inject_after : Bool)
    (c : FICore) (op : σ → MRes σ α)
    (acl : α → σ → MRes σ Unit) (bcl : σ → MRes σ Unit) (s s2 : σ) (res : α)
    (hk : c.keeper_null = false) (hp : c.fault_policy = none)
    (hop : op s = (.ok res, s2)) :
    accessVal inject_before inject_after c op acl bcl s = ⟨.ok res, c, s2, 1, 0⟩ := by
  obtain ⟨kn, kpn, fp, lg⟩ := c
  subst hk
  subst hp
  cases inject_before <;> cases inject_after <;>
    simp [accessVal, faultInjectionBeforeRun, faultInjectionAfterRun, hop]

theorem accessVal_none_throws {σ α : Type} (inject_before inject_after : Bool)
    (c : FICore) (op : σ → MRes σ α)
    (acl : α → σ → MRes σ Unit) (bcl : σ → MRes σ Unit) (s s2 : σ) (e : KError)
    (hk : c.keeper_null = false) (hp : c.fault_policy = none)
    (hop : op s = (.error (.keeper e), s2)) :
    accessVal inject_before inject_after c op acl bcl s
      = ⟨.error (.keeper e), { c with keeper_prev_null := false }, s2, 1,
         if c.logger then 1 else 0⟩ := by
  obtain ⟨kn, kpn, fp, lg⟩ := c
  subst hk
  subst hp
  cases inject_before <;> cases inject_after <;>
    simp [accessVal, faultInjectionBeforeRun, hop]

/-- An operation thunk whose normal return value is the hardware error
`ZCONNECTIONLOSS` (a connection-class code returned, not thrown). -/
def hwResultOp : Server → MRes Server KError := fun s => (.ok .ZCONNECTIONLOSS, s)

/-! ### C3 — null client / before-checkpoint failures -/

/-- C3 (counterexample): the claim says that on a null client reference any
before-failure cleanup callback runs before the synthetic `SessionExpired`
is surfaced.  In `tryMulti` the registered before-failure cleanup fills the
`responses` out-parameter with one `ZOPERATIONTIMEOUT` error response per
request; with a null keeper the `access` body throws before
`faultInjectionBefore` is ever reached, so the error is surfaced (and the
real client is never called) with `responses` still empty — the cleanup did
not run. -/
theorem C3_null_client_skips_cleanup_counterexample :
    (tryMulti coreNullKeeper [Request.other "/x"] emptyOkTryMulti [] [] []).result
        = .error (.keeper .ZSESSIONEXPIRED) ∧
    (tryMulti coreNullKeeper [Request.other "/x"] emptyOkTryMulti [] [] []).calls = 0 ∧
    (tryMulti coreNullKeeper [Request.other "/x"] emptyOkTryMulti [] [] []).server.2 = [] ∧
    (tryMulti coreNullKeeper [Request.other "/x"] emptyOkTryMulti [] [] []).server.2
        ≠ [Response.errorResp .ZOPERATIONTIMEOUT] := by
  refine ⟨?_, ?_, ?_, ?_⟩ <;> decide

/-- C3 (amended): for every proxy operation, a null client reference or a
firing before-checkpoint yields a synthetic `SessionExpired` (thrown, or
returned by `try*NoThrow` contracts) with the real client receiving zero
calls; the before-failure cleanup callback runs before the error is
surfaced when the before-checkpoint fires, but in the null-client case the
error is surfaced without running the cleanup (the state is untouched). -/
theorem C3_before_failure_contract :
    (∀ (σ : Type) (no_throw ib ia : Bool) (c : FICore) (op : σ → MRes σ KError)
        (acl : KError → σ → MRes σ Unit) (bcl : σ → MRes σ Unit) (s : σ),
        c.keeper_null = true →
        accessErr no_throw ib ia c op acl bcl s
          = ⟨if no_throw then .ok .ZSESSIONEXPIRED else .error (.keeper .ZSESSIONEXPIRED),
             c, s, 0, if c.logger then 1 else 0⟩) ∧
    (∀ (σ α : Type) (ib ia : Bool) (c : FICore) (op : σ → MRes σ α)
        (acl : α → σ → MRes σ Unit) (bcl : σ → MRes σ Unit) (s : σ),
        c.keeper_null = true →
        accessVal ib ia c op acl bcl s
          = ⟨.error (.keeper .ZSESSIONEXPIRED), c, s, 0, if c.logger then 1 else 0⟩) ∧
    (∀ (σ : Type) (no_throw ia : Bool) (c : FICore) (f : RandomFaultInjection)
        (op : σ → MRes σ KError) (acl : KError → σ → MRes σ Unit) (bcl : σ → MRes σ Unit)
        (s s1 : σ),
        c.keeper_null = false → c.fault_policy = some f →
        (f.stream f.pos || f.must_fail_before_op) = true →
        bcl s = (.ok (), s1) →
        accessErr no_throw true ia c op acl bcl s
          = ⟨if no_throw then .ok .ZSESSIONEXPIRED else .error (.keeper .ZSESSIONEXPIRED),
             { c with fault_policy := some ⟨f.must_fail_after_op, false, f.stream, f.pos + 1⟩,
                      keeper_prev_null := false },
             s1, 0, if c.logger then 1 else 0⟩) ∧
    (∀ (σ α : Type) (ia : Bool) (c : FICore) (f : RandomFaultInjection)
        (op : σ → MRes σ α) (acl : α → σ → MRes σ Unit) (bcl : σ → MRes σ Unit) (s s1 : σ),
        c.keeper_null = false → c.fault_policy = some f →
        (f.stream f.pos || f.must_fail_before_op) = true →
        bcl s = (.ok (), s1) →
        accessVal true ia c op acl bcl s
          = ⟨.error (.keeper .ZSESSIONEXPIRED),
             { c with fault_policy := some ⟨f.must_fail_after_op, false, f.stream, f.pos + 1⟩,
                      keeper_prev_null := false },
             s1, 0, if c.logger then 1 else 0⟩) := by
  refine ⟨?_, ?_, ?_, ?_⟩
  · intro σ no_throw ib ia c op acl bcl s hk
    exact accessErr_null no_throw ib ia c op acl bcl s hk
  · intro σ α ib ia c op acl bcl s hk
    exact accessVal_null ib ia c op acl bcl s hk
  · intro σ no_throw ia c f op acl bcl s s1 hk hp hfi hbcl
    exact accessErr_before_fire no_throw ia c f op acl bcl s s1 hk hp hfi hbcl
  · intro σ α ia c f op acl bcl s s1 hk hp hfi hbcl
    exact accessVal_before_fire ia c f op acl bcl s s1 hk hp hfi hbcl

/-- C3 (witness): the amended theorem applied to a null-client call. -/
theorem C3_before_failure_contract_witness :
    coreNullKeeper.keeper_null = true ∧
    accessErr false true true coreNullKeeper throwNoAuthOp noopAfterCleanup noopBeforeCleanup
        ([] : Server)
      = ⟨.error (.keeper .ZSESSIONEXPIRED), coreNullKeeper, [], 0, 0⟩ := by
  have h := C3_before_failure_contract.1 Server false true true coreNullKeeper throwNoAuthOp
    noopAfterCleanup noopBeforeCleanup [] rfl
  exact ⟨rfl, by simpa using h⟩

/-! ### C5 — try-contract translation of thrown native errors -/

/-- C5 (counterexample): the claim says that for a "try"-contract operation
only the operation-specific whitelist of recoverable user errors is
converted to a return value and every other native error propagates as
thrown.  `ZNOAUTH` is a native, non-hardware error on no whitelist (the
spec's `remove` whitelist is not-found/bad-version/not-empty), yet the
sync `access` catch converts it into a returned code instead of
rethrowing. -/
theorem C5_nonwhitelist_error_returned_counterexample :
    (accessErr false true true coreQuiet throwNoAuthOp noopAfterCleanup noopBeforeCleanup
        ([] : Server)).result = .ok .ZNOAUTH ∧
    isHardwareError .ZNOAUTH = false ∧
    KError.ZNOAUTH ∉ ([.ZNONODE, .ZBADVERSION, .ZNOTEMPTY] : List KError) ∧
    (accessErr false true true coreQuiet throwNoAuthOp noopAfterCleanup noopBeforeCleanup
        ([] : Server)).result ≠ .error (.keeper .ZNOAUTH) := by
  refine ⟨?_, ?_, ?_, ?_⟩ <;> decide

/-- C5 (amended): when the real client call of a sync operation throws a
native error, the catch block classifies it by hardware-ness alone: a
`try*NoThrow` instantiation returns the code whatever it is; an
`Error`-returning try operation rethrows exactly the hardware/connection
class and converts **every** non-hardware native error — whitelisted or
not — into a returned code (and `keeper_prev` is updated). -/
theorem C5_try_contract_catch_translation {σ : Type} (no_throw inject_after : Bool)
    (c : FICore) (f : RandomFaultInjection) (op : σ → MRes σ KError)
    (acl : KError → σ → MRes σ Unit) (bcl : σ → MRes σ Unit) (s s2 : σ) (e : KError)
    (hk : c.keeper_null = false) (hp : c.fault_policy = some f)
    (hd : f.stream f.pos = false) (hfl : f.must_fail_before_op = false)
    (hop : op s = (.error (.keeper e), s2)) :
    accessErr no_throw true inject_after c op acl bcl s
      = ⟨if no_throw then .ok e else if isHardwareError e then .error (.keeper e) else .ok e,
         { c with fault_policy := some { f with pos := f.pos + 1 }, keeper_prev_null := false },
         s2, 1, if c.logger then 1 else 0⟩ :=
  accessErr_op_throws no_throw inject_after c f op acl bcl s s2 e hk hp hd hfl hop

/-- C5 (witness): the amended theorem applied to a `NoThrow` call whose
client throws `ZNOAUTH`; the code comes back as a return value. -/
theorem C5_try_contract_catch_translation_witness :
    coreQuiet.keeper_null = false ∧
    coreQuiet.fault_policy = some ⟨false, false, streamNever, 0⟩ ∧
    streamNever 0 = false ∧
    throwNoAuthOp [] = (.error (.keeper .ZNOAUTH), []) ∧
    accessErr true true true coreQuiet throwNoAuthOp noopAfterCleanup noopBeforeCleanup
        ([] : Server)
      = ⟨.ok .ZNOAUTH, ⟨false, false, some ⟨false, false, streamNever, 1⟩, false⟩, [], 1, 0⟩ := by
  refine ⟨rfl, rfl, rfl, rfl, ?_⟩
  have h := C5_try_contract_catch_translation true true coreQuiet
    ⟨false, false, streamNever, 0⟩ throwNoAuthOp noopAfterCleanup noopBeforeCleanup
    [] [] .ZNOAUTH rfl rfl rfl rfl rfl
  simpa using h

/-! ### C6 — hardware result codes pass through without double-faulting -/

/-- C6 (confirmed): when the real call of an error-code-returning operation
returns a hardware/connection-class code and the before checkpoint did not
fire, `access` returns that code unmodified and never evaluates the after
checkpoint: the policy has consumed exactly the one before draw (`pos + 1`,
after-override flag untouched), the after-failure cleanup has not run (the
state is exactly the operation's), nothing is logged and `keeper_prev` is
unchanged — for every `inject_after` instantiation and every cleanup. -/
theorem C6_hardware_result_never_double_faulted {σ : Type} (no_throw inject_after : Bool)
    (c : FICore) (f : RandomFaultInjection) (op : σ → MRes σ KError)
    (acl : KError → σ → MRes σ Unit) (bcl : σ → MRes σ Unit) (s s2 : σ) (res : KError)
    (hk : c.keeper_null = false) (hp : c.fault_policy = some f)
    (hd : f.stream f.pos = false) (hfl : f.must_fail_before_op = false)
    (hop : op s = (.ok res, s2)) (hhw : isHardwareError res = true) :
    accessErr no_throw true inject_after c op acl bcl s
      = ⟨.ok res, { c with fault_policy := some { f with pos := f.pos + 1 } }, s2, 1, 0⟩ :=
  accessErr_hw_result no_throw inject_after c f op acl bcl s s2 res hk hp hd hfl hop hhw

/-- C6 (witness): the theorem applied to a call returning
`ZCONNECTIONLOSS`. -/
theorem C6_hardware_result_never_double_faulted_witness :
    coreQuiet.keeper_null = false ∧
    coreQuiet.fault_policy = some ⟨false, false, streamNever, 0⟩ ∧
    streamNever 0 = false ∧
    hwResultOp [] = (.ok .ZCONNECTIONLOSS, []) ∧
    isHardwareError .ZCONNECTIONLOSS = true ∧
    accessErr false true true coreQuiet hwResultOp noopAfterCleanup noopBeforeCleanup
        ([] : Server)
      = ⟨.ok .ZCONNECTIONLOSS, ⟨false, true, some ⟨false, false, streamNever, 1⟩, false⟩,
         [], 1, 0⟩ := by
  refine ⟨rfl, rfl, rfl, rfl, rfl, ?_⟩
  have h := C6_hardware_result_never_double_faulted false true coreQuiet
    ⟨false, false, streamNever, 0⟩ hwResultOp noopAfterCleanup noopBeforeCleanup
    [] [] .ZCONNECTIONLOSS rfl rfl rfl rfl rfl rfl
  simpa using h

/-! ### C2 — probability 0 -/

theorem accessErr_policy_none {σ : Type} (no_throw inject_before inject_after : Bool)
    (c : FICore) (op : σ → MRes σ KError)
    (acl : KError → σ → MRes σ Unit) (bcl : σ → MRes σ Unit) (s : σ)
    (hp : c.fault_policy = none) :
    (accessErr no_throw inject_before inject_after c op acl bcl s).core.fault_policy = none := by
  obtain ⟨kn, kpn, fp, lg⟩ := c
  subst hp
  cases kn with
  | true =>
    cases no_throw <;>
      simp [accessErr, accessCatch, show isHardwareError .ZSESSIONEXPIRED = true from rfl]
  | false =>
    rcases hop : op s with ⟨r, s2⟩
    rcases r with x | res
    · rcases x with e | _
      · cases no_throw <;> cases hhe : isHardwareError e <;>
          cases inject_before <;> cases inject_after <;>
          simp [accessErr, accessCatch, faultInjectionBeforeRun, hop, hhe]
      · cases no_throw <;> cases inject_before <;> cases inject_after <;>
          simp [accessErr, faultInjectionBeforeRun, hop]
    · cases hh : isHardwareError res <;>
        cases no_throw <;> cases inject_before <;> cases inject_after <;>
        simp [accessErr, accessCatch, faultInjectionBeforeRun, faultInjectionAfterRun, hop, hh]

theorem accessVal_policy_none {σ α : Type} (inject_before inject_after : Bool)
    (c : FICore) (op : σ → MRes σ α)
    (acl : α → σ → MRes σ Unit) (bcl : σ → MRes σ Unit) (s : σ)
    (hp : c.fault_policy = none) :
    (accessVal inject_before inject_after c op acl bcl s).core.fault_policy = none := by
  obtain ⟨kn, kpn, fp, lg⟩ := c
  subst hp
  cases kn with
  | true => simp [accessVal]
  | false =>
    rcases hop : op s with ⟨r, s2⟩
    rcases r with x | res
    · rcases x with e | _ <;>
        cases inject_before <;> cases inject_after <;>
        simp [accessVal, faultInjectionBeforeRun, hop]
    · cases inject_before <;> cases inject_after <;>
        simp [accessVal, faultInjectionBeforeRun, faultInjectionAfterRun, hop]

theorem tryCreatePost_eph_of_policy_none (mode : CreateMode) (eph : List String)
    (a : AccOut (Server × String) KError) (h : a.core.fault_policy = none) :
    (tryCreatePost mode eph a).eph = eph := by
  rcases a with ⟨r, core, sv, calls, logs⟩
  rcases r with x | code <;> simp_all [tryCreatePost]

theorem tryMultiPost_eph_of_policy_none (requests : List Request) (eph : List String)
    (a : AccOut (Server × List Response) KError) (h : a.core.fault_policy = none) :
    (tryMultiPost requests eph a).eph = eph := by
  rcases a with ⟨r, core, sv, calls, logs⟩
  rcases r with x | code <;> simp_all [tryMultiPost]

theorem multiPost_eph_of_policy_none (requests : List Request) (eph : List String)
    (a : AccOut Server (List Response)) (h : a.core.fault_policy = none) :
    (multiPost requests eph a).eph = eph := by
  rcases a with ⟨r, core, sv, calls, logs⟩
  rcases r with x | res <;> simp_all [multiPost]

/-- C2 (counterexample): the claim says that at probability exactly 0 every
operation's result is identical to calling the real client directly.  The
`access` catch block exists even without a policy: when the real client call
of an error-code-returning try operation throws the non-hardware `ZNOAUTH`,
the direct call's outcome is a thrown exception, but the probability-0 proxy
returns it as a code. -/
theorem C2_zero_probability_not_identical_counterexample :
    (accessErr false true true (createInstance 0 streamNever false true)
        throwNoAuthOp noopAfterCleanup noopBeforeCleanup ([] : Server)).result
      = .ok .ZNOAUTH ∧
    (throwNoAuthOp ([] : Server)).1 = .error (.keeper .ZNOAUTH) ∧
    (accessErr false true true (createInstance 0 streamNever false true)
        throwNoAuthOp noopAfterCleanup noopBeforeCleanup ([] : Server)).result
      ≠ (throwNoAuthOp ([] : Server)).1 := by
  have hc : createInstance 0 streamNever false true = ⟨false, true, none, false⟩ := by
    norm_num [createInstance]
  refine ⟨?_, rfl, ?_⟩ <;> rw [hc] <;> decide

/-- C2 (amended): a probability-0 `createInstance` yields an instance with no
fault policy and no logger.  With no policy and a non-null client, every
operation invokes the real client exactly once, logs nothing, touches no
ephemeral tracking, and forwards the real outcome — with the one exception
the counterexample forces: the catch block of error-code-returning
operations converts a *thrown* non-hardware error into a returned code
(`try*NoThrow` forms return even hardware codes), and a thrown error updates
the internal `keeper_prev` reference.  Normally-returned values, and thrown
errors of operations whose contract rethrows them, are forwarded
identically. -/
theorem C2_zero_probability_pure_forwarding :
    (∀ (stream : Nat → Bool) (kn lg : Bool),
        createInstance 0 stream kn lg = ⟨kn, true, none, false⟩) ∧
    (∀ (σ : Type) (no_throw ib ia : Bool) (c : FICore) (op : σ → MRes σ KError)
        (acl : KError → σ → MRes σ Unit) (bcl : σ → MRes σ Unit) (s s2 : σ) (res : KError),
        c.keeper_null = false → c.fault_policy = none →
        op s = (.ok res, s2) →
        accessErr no_throw ib ia c op acl bcl s = ⟨.ok res, c, s2, 1, 0⟩) ∧
    (∀ (σ : Type) (no_throw ib ia : Bool) (c : FICore) (op : σ → MRes σ KError)
        (acl : KError → σ → MRes σ Unit) (bcl : σ → MRes σ Unit) (s s2 : σ) (e : KError),
        c.keeper_null = false → c.fault_policy = none →
        op s = (.error (.keeper e), s2) →
        accessErr no_throw ib ia c op acl bcl s
          = ⟨if no_throw then .ok e
             else if isHardwareError e then .error (.keeper e) else .ok e,
             { c with keeper_prev_null := false }, s2, 1, if c.logger then 1 else 0⟩) ∧
    (∀ (σ α : Type) (ib ia : Bool) (c : FICore) (op : σ → MRes σ α)
        (acl : α → σ → MRes σ Unit) (bcl : σ → MRes σ Unit) (s s2 : σ) (res : α),
        c.keeper_null = false → c.fault_policy = none →
        op s = (.ok res, s2) →
        accessVal ib ia c op acl bcl s = ⟨.ok res, c, s2, 1, 0⟩) ∧
    (∀ (σ α : Type) (ib ia : Bool) (c : FICore) (op : σ → MRes σ α)
        (acl : α → σ → MRes σ Unit) (bcl : σ → MRes σ Unit) (s s2 : σ) (e : KError),
        c.keeper_null = false → c.fault_policy = none →
        op s = (.error (.keeper e), s2) →
        accessVal ib ia c op acl bcl s
          = ⟨.error (.keeper e), { c with keeper_prev_null := false }, s2, 1,
             if c.logger then 1 else 0⟩) ∧
    (∀ (c : FICore) (path data : String) (mode : CreateMode)
        (impl : String → String → CreateMode → Server → MRes Server (KError × String))
        (eph : List String) (s : Server),
        c.fault_policy = none → (tryCreate c path data mode impl eph s).eph = eph) ∧
    (∀ (c : FICore) (requests : List Request)
        (impl : Server → MRes Server (KError × List Response))
        (eph : List String) (s : Server) (responses0 : List Response),
        c.fault_policy = none →
        (tryMulti c requests impl eph s responses0).eph = eph) ∧
    (∀ (c : FICore) (requests : List Request) (impl : Server → MRes Server (List Response))
        (eph : List String) (s : Server),
        c.fault_policy = none → (multi c requests impl eph s).eph = eph) := by
  refine ⟨?_, ?_, ?_, ?_, ?_, ?_, ?_, ?_⟩
  · intro stream kn lg
    norm_num [createInstance]
  · intro σ no_throw ib ia c op acl bcl s s2 res hk hp hop
    exact accessErr_none_ok no_throw ib ia c op acl bcl s s2 res hk hp hop
  · intro σ no_throw ib ia c op acl bcl s s2 e hk hp hop
    exact accessErr_none_throws no_throw ib ia c op acl bcl s s2 e hk hp hop
  · intro σ α ib ia c op acl bcl s s2 res hk hp hop
    exact accessVal_none_ok ib ia c op acl bcl s s2 res hk hp hop
  · intro σ α ib ia c op acl bcl s s2 e hk hp hop
    exact accessVal_none_throws ib ia c op acl bcl s s2 e hk hp hop
  · intro c path data mode impl eph s hp
    unfold tryCreate
    exact tryCreatePost_eph_of_policy_none mode eph _
      (accessErr_policy_none _ _ _ _ _ _ _ _ hp)
  · intro c requests impl eph s responses0 hp
    unfold tryMulti
    exact tryMultiPost_eph_of_policy_none requests eph _
      (accessErr_policy_none _ _ _ _ _ _ _ _ hp)
  · intro c requests impl eph s hp
    unfold multi
    exact multiPost_eph_of_policy_none requests eph _
      (accessVal_policy_none _ _ _ _ _ _ _ hp)

/-- C2 (witness): the amended theorem applied to a probability-0 instance
whose client call returns `ZOK`. -/
theorem C2_zero_probability_pure_forwarding_witness :
    (createInstance 0 streamNever false true).keeper_null = false ∧
    (createInstance 0 streamNever false true).fault_policy = none ∧
    hwResultOp [] = (.ok .ZCONNECTIONLOSS, []) ∧
    accessErr false true true (createInstance 0 streamNever false true) hwResultOp
        noopAfterCleanup noopBeforeCleanup ([] : Server)
      = ⟨.ok .ZCONNECTIONLOSS, createInstance 0 streamNever false true, [], 1, 0⟩ := by
  have hc : createInstance 0 streamNever false true = ⟨false, true, none, false⟩ := by
    norm_num [createInstance]
  refine ⟨by rw [hc], by rw [hc], rfl, ?_⟩
  exact C2_zero_probability_pure_forwarding.2.1 Server false true true
    (createInstance 0 streamNever false true) hwResultOp noopAfterCleanup noopBeforeCleanup
    [] [] .ZCONNECTIONLOSS (by rw [hc]) (by rw [hc]) rfl

/-! ### C8 — async operations: synchronous before-check, resolved futures -/

/-- The condition under which an async call's before path fires: a null
client reference, or an attached policy whose next before decision fires. -/
def beforeFault (c : FICore) : Prop :=
  c.keeper_null = true ∨
    ∃ f, c.fault_policy = some f ∧ (f.stream f.pos || f.must_fail_before_op) = true

theorem injectFailureBeforeOp_fault (c : FICore) (h : beforeFault c) :
    ∃ p1, injectFailureBeforeOp c = (some (.keeper .ZSESSIONEXPIRED), p1) := by
  rcases h with hk | ⟨f, hp, hfi⟩
  · exact ⟨c.fault_policy, by simp [injectFailureBeforeOp, hk]⟩
  · cases hkn : c.keeper_null
    · exact ⟨some ⟨f.must_fail_after_op, false, f.stream, f.pos + 1⟩, by
        simp [injectFailureBeforeOp, hkn, hp, beforeOperationNoThrow_fire f hfi]⟩
    · exact ⟨c.fault_policy, by simp [injectFailureBeforeOp, hkn]⟩

theorem asyncNoThrowBeforeCheck_fault (c : FICore) (h : beforeFault c) :
    ∃ p1, asyncNoThrowBeforeCheck c = (true, p1) := by
  rcases h with hk | ⟨f, hp, hfi⟩
  · exact ⟨c.fault_policy, by simp [asyncNoThrowBeforeCheck, hk]⟩
  · cases hkn : c.keeper_null
    · exact ⟨some ⟨f.must_fail_after_op, false, f.stream, f.pos + 1⟩, by
        simp [asyncNoThrowBeforeCheck, hkn, hp, beforeOperationNoThrow_fire f hfi]⟩
    · exact ⟨c.fault_policy, by simp [asyncNoThrowBeforeCheck, hkn]⟩

/-- C8 (confirmed): for every asynchronous operation, the before check runs
synchronously; when it fires (null client or firing decision) the call
itself returns normally — a future, never a synchronous throw — that is
already resolved with the synthetic session-expired outcome (a stored
exception for `asyncExists`/`asyncTryGet`/`asyncTryRemove`, an error-valued
response for the `NoThrow` forms), the client state is untouched and the
real client receives zero calls, whatever the client implementation. -/
theorem C8_async_before_check_synchronous_resolution (c : FICore) (h : beforeFault c) :
    (∀ (impl : Server → RespE × Server) (s : Server),
        (asyncExists c impl s).1 = .exc (.keeper .ZSESSIONEXPIRED) ∧
        (asyncExists c impl s).2.2.1 = s ∧ (asyncExists c impl s).2.2.2 = 0) ∧
    (∀ (impl : Server → RespE × Server) (s : Server),
        (asyncTryGet c impl s).1 = .exc (.keeper .ZSESSIONEXPIRED) ∧
        (asyncTryGet c impl s).2.2.1 = s ∧ (asyncTryGet c impl s).2.2.2 = 0) ∧
    (∀ (impl : Server → RespE × Server) (s : Server),
        (asyncTryRemove c impl s).1 = .exc (.keeper .ZSESSIONEXPIRED) ∧
        (asyncTryRemove c impl s).2.2.1 = s ∧ (asyncTryRemove c impl s).2.2.2 = 0) ∧
    (∀ (impl : Server → RespE × Server) (s : Server),
        (asyncTryRemoveNoThrow c impl s).1 = .value ⟨.ZSESSIONEXPIRED⟩ ∧
        (asyncTryRemoveNoThrow c impl s).2.2.1 = s ∧
        (asyncTryRemoveNoThrow c impl s).2.2.2 = 0) ∧
    (∀ (path data : String) (mode : CreateMode)
        (impl : String → String → CreateMode → Server → CreateResp × Server) (s : Server),
        (asyncTryCreateNoThrow c path data mode impl s).1 = .value ⟨.ZSESSIONEXPIRED, ""⟩ ∧
        (asyncTryCreateNoThrow c path data mode impl s).2.2.1 = s ∧
        (asyncTryCreateNoThrow c path data mode impl s).2.2.2 = 0) ∧
    (∀ (ops : List Request) (impl : List Request → Server → List Response × Server)
        (s : Server),
        (asyncTryMultiNoThrow c ops impl s).1
          = .value (List.replicate ops.length (Response.errorResp .ZSESSIONEXPIRED)) ∧
        (asyncTryMultiNoThrow c ops impl s).2.2.1 = s ∧
        (asyncTryMultiNoThrow c ops impl s).2.2.2 = 0) := by
  obtain ⟨p1, h1⟩ := injectFailureBeforeOp_fault c h
  obtain ⟨p2, h2⟩ := asyncNoThrowBeforeCheck_fault c h
  refine ⟨?_, ?_, ?_, ?_, ?_, ?_⟩
  · intro impl s
    simp [asyncExists, h1]
  · intro impl s
    simp [asyncTryGet, h1]
  · intro impl s
    simp [asyncTryRemove, h1]
  · intro impl s
    simp [asyncTryRemoveNoThrow, h2]
  · intro path data mode impl s
    simp [asyncTryCreateNoThrow, h2]
  · intro ops impl s
    simp [asyncTryMultiNoThrow, h2]

/-- A real-client existence check that reports `ZOK` (used by the C8
witness). -/
def implExistsOk : Server → RespE × Server := fun s => (⟨.ZOK⟩, s)

/-- C8 (witness): the theorem applied to a null-client instance. -/
theorem C8_async_before_check_witness :
    beforeFault coreNullKeeper ∧
    (asyncExists coreNullKeeper implExistsOk []).1 = .exc (.keeper .ZSESSIONEXPIRED) ∧
    (asyncExists coreNullKeeper implExistsOk []).2.2.2 = 0 := by
  have hb : beforeFault coreNullKeeper := Or.inl rfl
  have h := (C8_async_before_check_synchronous_resolution coreNullKeeper hb).1 implExistsOk []
  exact ⟨hb, h.1, h.2.2⟩

/-! ### C1 — committed multi batch hit by the after checkpoint -/

/-- Running the ephemeral scan with `keeper->remove` as the action deletes
every scanned created path: provided each scanned index holds a
`CreateResponse`, the scanned paths are pairwise distinct and all present,
the run succeeds and none of the paths remain (and no path appears that was
not there before). -/
theorem runCreateActions_remove (responses : List Response) :
    ∀ (idxs : List Nat) (s : Server),
      (∀ i ∈ idxs, ∃ p e, responses.getD i (.errorResp .ZOK) = Response.create p e) →
      (pathsAt responses idxs).Nodup →
      (∀ p ∈ pathsAt responses idxs, p ∈ s) →
      ∃ s1, runCreateActions responses (fun path sv => serverRemove path sv) idxs s
          = (.ok (), s1)
        ∧ (∀ p ∈ pathsAt responses idxs, p ∉ s1)
        ∧ (∀ q ∈ s1, q ∈ s) := by
  intro idxs
  induction idxs with
  | nil =>
    intro s _ _ _
    exact ⟨s, rfl, by simp [pathsAt], fun q hq => hq⟩
  | cons i rest ih =>
    intro s hcr hnd hin
    obtain ⟨p, e, hpe⟩ := hcr i (List.mem_cons_self i rest)
    have hpe2 : (responses[i]?).getD (Response.errorResp KError.ZOK) = Response.create p e := by
      simpa [List.getD_eq_getElem?_getD] using hpe
    have hpaths : pathsAt responses (i :: rest) = p :: pathsAt responses rest := by
      simp [pathsAt, hpe2]
    rw [hpaths] at hnd hin
    have hp_s : p ∈ s := hin p (List.mem_cons_self p _)
    have hstep : runCreateActions responses (fun path sv => serverRemove path sv) (i :: rest) s
        = runCreateActions responses (fun path sv => serverRemove path sv) rest
            (s.filter (fun q => q ≠ p)) := by
      simp [runCreateActions, hpe2, serverRemove, hp_s]
    have hrest_in : ∀ q ∈ pathsAt responses rest, q ∈ s.filter (fun q => q ≠ p) := by
      intro q hq
      have hq_s : q ∈ s := hin q (List.mem_cons_of_mem _ hq)
      have hq_ne : q ≠ p := by
        intro hqp
        exact (List.nodup_cons.mp hnd).1 (hqp ▸ hq)
      simp [List.mem_filter, hq_s, hq_ne]
    obtain ⟨s1, hrun, hout, hsub⟩ := ih (s.filter (fun q => q ≠ p))
      (fun j hj => hcr j (List.mem_cons_of_mem _ hj)) (List.nodup_cons.mp hnd).2 hrest_in
    refine ⟨s1, by rw [hstep, hrun], ?_, ?_⟩
    · rw [hpaths]
      intro q hq
      rcases List.mem_cons.mp hq with rfl | hq2
      · intro hqs1
        have hqf := hsub q hqs1
        simp [List.mem_filter] at hqf
      · exact hout q hq2
    · intro q hq
      exact List.mem_of_mem_filter (hsub q hq)

/-- `faultInjectionPostAction` on a truly committed batch (matching counts,
create responses at the ephemeral indices, distinct created paths, all
present server-side) succeeds and deletes every created ephemeral path. -/
theorem faultInjectionPostAction_removes (requests : List Request)
    (responses : List Response) (s : Server)
    (hlen : responses.length = requests.length)
    (hcr : ∀ i ∈ ephemeralCreateIndices requests,
      ∃ p e, responses.getD i (.errorResp .ZOK) = Response.create p e)
    (hnd : (createdEphemeralPaths requests responses).Nodup)
    (hin : ∀ p ∈ createdEphemeralPaths requests responses, p ∈ s) :
    ∃ s1, faultInjectionPostAction requests responses s = (.ok (), s1)
      ∧ ∀ p ∈ createdEphemeralPaths requests responses, p ∉ s1 := by
  unfold faultInjectionPostAction doForEachCreatedEphemeralNode
  cases hresp : responses.isEmpty
  · rw [if_neg (by simp [hresp]), if_neg (by simp [hlen])]
    obtain ⟨s1, hrun, hout, _⟩ := runCreateActions_remove responses
      (ephemeralCreateIndices requests) s hcr hnd hin
    exact ⟨s1, hrun, hout⟩
  · have hre : responses = [] := List.isEmpty_iff.mp hresp
    have hreq : requests = [] := by
      have := hlen
      rw [hre] at this
      exact List.eq_nil_of_length_eq_zero this.symm
    refine ⟨s, by simp [hresp], ?_⟩
    intro p hp
    rw [hre, hreq] at hp
    simp [createdEphemeralPaths, pathsAt, ephemeralCreateIndices] at hp

/-- C1 (confirmed): a multi-op batch that truly committed (the real `multi`
returned its responses) and is then hit by the after checkpoint is reported
to the caller as a thrown `OperationTimeout`, and before that error is
surfaced the compensating cleanup scans the committed batch and issues a
`keeper->remove` for every ephemeral path actually created, so that none of
those paths exist on the client afterwards.  The hypotheses state that the
commit is real: response count matches, every ephemeral-create slot holds a
`CreateResponse`, and the created paths are distinct and present
server-side.  The tracker is untouched and the real client received exactly
one (multi) call. -/
theorem C1_multi_after_fault_compensation
    (c : FICore) (f : RandomFaultInjection) (requests : List Request)
    (impl : Server → MRes Server (List Response)) (eph : List String)
    (s s2 : Server) (responses : List Response)
    (hk : c.keeper_null = false) (hp : c.fault_policy = some f)
    (hd : f.stream f.pos = false) (hfl : f.must_fail_before_op = false)
    (hfi : (f.stream (f.pos + 1) || f.must_fail_after_op) = true)
    (himpl : impl s = (.ok responses, s2))
    (hlen : responses.length = requests.length)
    (hcr : ∀ i ∈ ephemeralCreateIndices requests,
      ∃ p e, responses.getD i (.errorResp .ZOK) = Response.create p e)
    (hnd : (createdEphemeralPaths requests responses).Nodup)
    (hin : ∀ p ∈ createdEphemeralPaths requests responses, p ∈ s2) :
    ∃ s3, multi c requests impl eph s
        = ⟨.error (.keeper .ZOPERATIONTIMEOUT),
           { c with fault_policy := some ⟨false, false, f.stream, f.pos + 1 + 1⟩,
                    keeper_prev_null := false },
           eph, s3, 1, if c.logger then 1 else 0⟩
      ∧ ∀ p ∈ createdEphemeralPaths requests responses, p ∉ s3 := by
  obtain ⟨s3, hpost, hout⟩ :=
    faultInjectionPostAction_removes requests responses s2 hlen hcr hnd hin
  refine ⟨s3, ?_, hout⟩
  unfold multi
  rw [accessVal_after_fire c f impl
    (fun responses sv => faultInjectionPostAction requests responses sv)
    (fun sv => (.ok (), sv)) s s2 s3 responses hk hp hd hfl himpl hfi hpost]
  simp [multiPost]

/-- The real-client `multi` used by the C1 witness: commits one ephemeral
create of `/e`. -/
def implMultiOne : Server → MRes Server (List Response) :=
  fun _ => (.ok [Response.create "/e" .ZOK], ["/e"])

/-- C1 (witness): the theorem applied to a one-ephemeral-create batch whose
after checkpoint fires; the committed node `/e` is gone afterwards. -/
theorem C1_multi_after_fault_compensation_witness :
    coreAfterFires.keeper_null = false ∧
    coreAfterFires.fault_policy = some ⟨false, false, streamSecond, 0⟩ ∧
    streamSecond 0 = false ∧
    (streamSecond (0 + 1) || false) = true ∧
    implMultiOne [] = (.ok [Response.create "/e" .ZOK], ["/e"]) ∧
    (∃ s3, multi coreAfterFires [Request.create "/e" true] implMultiOne [] []
        = ⟨.error (.keeper .ZOPERATIONTIMEOUT),
           ⟨false, false, some ⟨false, false, streamSecond, 0 + 1 + 1⟩, false⟩, [], s3, 1, 0⟩
      ∧ ∀ p ∈ createdEphemeralPaths [Request.create "/e" true] [Response.create "/e" .ZOK],
          p ∉ s3) := by
  refine ⟨rfl, rfl, rfl, rfl, rfl, ?_⟩
  have hcr : ∀ i ∈ ephemeralCreateIndices [Request.create "/e" true],
      ∃ p e, ([Response.create "/e" .ZOK] : List Response).getD i (.errorResp .ZOK)
        = Response.create p e := by
    intro i hi
    have he : ephemeralCreateIndices [Request.create "/e" true] = [0] := by decide
    rw [he] at hi
    have h0 : i = 0 := by simpa using hi
    subst h0
    exact ⟨"/e", .ZOK, rfl⟩
  have h := C1_multi_after_fault_compensation coreAfterFires ⟨false, false, streamSecond, 0⟩
    [Request.create "/e" true] implMultiOne [] [] ["/e"] [Response.create "/e" .ZOK]
    rfl rfl rfl rfl rfl rfl (by decide) hcr (by decide) (by decide)
  simpa [coreAfterFires] using h

/-! ### C10 — tryCreate compensation and tracking happen only for ephemeral
modes with a non-empty created path -/

/-- C10 (confirmed): in `tryCreate`, the compensating removal on an injected
after-failure and the tracking of the created path are guarded by "created
path non-empty and mode ephemeral":
(a) a node created with a non-ephemeral mode whose call is failed by the
after checkpoint is neither deleted (the client state is exactly the
operation's) nor tracked, while the caller sees a thrown
`OperationTimeout`;
(b) under an ephemeral mode with a non-empty created path the same fault
removes the created node;
(c) on an unfaulted success the path is tracked exactly when the guard
holds. -/
theorem C10_tryCreate_ephemeral_guard
    (c : FICore) (f : RandomFaultInjection) (path data : String)
    (impl : String → String → CreateMode → Server → MRes Server (KError × String))
    (eph : List String) (s s2 : Server) (pc : String)
    (hk : c.keeper_null = false) (hp : c.fault_policy = some f)
    (hd : f.stream f.pos = false) (hfl : f.must_fail_before_op = false) :
    (∀ mode : CreateMode, mode ≠ .Ephemeral → mode ≠ .EphemeralSequential →
      (f.stream (f.pos + 1) || f.must_fail_after_op) = true →
      impl path data mode s = (.ok (.ZOK, pc), s2) →
      tryCreate c path data mode impl eph s
        = ⟨.error (.keeper .ZOPERATIONTIMEOUT),
           { c with fault_policy := some ⟨false, false, f.stream, f.pos + 1 + 1⟩,
                    keeper_prev_null := false },
           eph, (s2, pc), 1, if c.logger then 1 else 0⟩) ∧
    (∀ mode : CreateMode, (mode = .Ephemeral ∨ mode = .EphemeralSequential) →
      pc ≠ "" → pc ∈ s2 →
      (f.stream (f.pos + 1) || f.must_fail_after_op) = true →
      impl path data mode s = (.ok (.ZOK, pc), s2) →
      tryCreate c path data mode impl eph s
        = ⟨.error (.keeper .ZOPERATIONTIMEOUT),
           { c with fault_policy := some ⟨false, false, f.stream, f.pos + 1 + 1⟩,
                    keeper_prev_null := false },
           eph, (s2.filter (fun q => q ≠ pc), pc), 1, if c.logger then 1 else 0⟩ ∧
      pc ∉ (tryCreate c path data mode impl eph s).server.1) ∧
    (∀ mode : CreateMode,
      f.stream (f.pos + 1) = false → f.must_fail_after_op = false →
      impl path data mode s = (.ok (.ZOK, pc), s2) →
      (tryCreate c path data mode impl eph s).result = .ok .ZOK ∧
      (tryCreate c path data mode impl eph s).eph
        = (if pc ≠ "" ∧ (mode = .EphemeralSequential ∨ mode = .Ephemeral)
           then eph ++ [pc] else eph)) := by
  refine ⟨?_, ?_, ?_⟩
  · intro mode hm1 hm2 hfi himpl
    have hop : tryCreateOp path data mode impl (s, "") = (.ok .ZOK, (s2, pc)) := by
      simp [tryCreateOp, himpl]
    have hacl : tryCreateCleanup mode .ZOK (s2, pc) = (.ok (), (s2, pc)) := by
      simp [tryCreateCleanup, hm1, hm2]
    unfold tryCreate
    rw [accessErr_after_fire false c f (tryCreateOp path data mode impl)
      (tryCreateCleanup mode) (fun sp => (.ok (), sp)) (s, "") (s2, pc) (s2, pc) .ZOK
      hk hp hd hfl hop rfl hfi hacl]
    simp [tryCreatePost]
  · intro mode hm hpc hmem hfi himpl
    have hop : tryCreateOp path data mode impl (s, "") = (.ok .ZOK, (s2, pc)) := by
      simp [tryCreateOp, himpl]
    have hacl : tryCreateCleanup mode .ZOK (s2, pc)
        = (.ok (), (s2.filter (fun q => q ≠ pc), pc)) := by
      rcases hm with rfl | rfl <;> simp [tryCreateCleanup, hpc, serverRemove, hmem]
    have hmain : tryCreate c path data mode impl eph s
        = ⟨.error (.keeper .ZOPERATIONTIMEOUT),
           { c with fault_policy := some ⟨false, false, f.stream, f.pos + 1 + 1⟩,
                    keeper_prev_null := false },
           eph, (s2.filter (fun q => q ≠ pc), pc), 1, if c.logger then 1 else 0⟩ := by
      unfold tryCreate
      rw [accessErr_after_fire false c f (tryCreateOp path data mode impl)
        (tryCreateCleanup mode) (fun sp => (.ok (), sp)) (s, "")
        (s2, pc) (s2.filter (fun q => q ≠ pc), pc) .ZOK
        hk hp hd hfl hop rfl hfi hacl]
      simp [tryCreatePost]
    refine ⟨hmain, ?_⟩
    rw [hmain]
    simp [List.mem_filter]
  · intro mode hd2 hfl2 himpl
    have hop : tryCreateOp path data mode impl (s, "") = (.ok .ZOK, (s2, pc)) := by
      simp [tryCreateOp, himpl]
    unfold tryCreate
    rw [accessErr_after_pass false c f (tryCreateOp path data mode impl)
      (tryCreateCleanup mode) (fun sp => (.ok (), sp)) (s, "") (s2, pc) .ZOK
      hk hp hd hfl hop rfl hd2 hfl2]
    constructor
    · simp [tryCreatePost]
    · simp [tryCreatePost]

/-- The real-client `tryCreate` used by the C10 witness: creates the node
and returns its path. -/
def implCreateOk : String → String → CreateMode → Server → MRes Server (KError × String) :=
  fun p _ _ s => (.ok (.ZOK, p), s ++ [p])

/-- C10 (witness): a persistent create failed by the after checkpoint leaves
the node on the client, tracks nothing, and throws `OperationTimeout`. -/
theorem C10_tryCreate_ephemeral_guard_witness :
    coreAfterFires.keeper_null = false ∧
    coreAfterFires.fault_policy = some ⟨false, false, streamSecond, 0⟩ ∧
    streamSecond 0 = false ∧
    (streamSecond (0 + 1) || false) = true ∧
    (CreateMode.Persistent ≠ CreateMode.Ephemeral) ∧
    (CreateMode.Persistent ≠ CreateMode.EphemeralSequential) ∧
    implCreateOk "/p" "d" .Persistent [] = (.ok (.ZOK, "/p"), ["/p"]) ∧
    tryCreate coreAfterFires "/p" "d" .Persistent implCreateOk [] []
      = ⟨.error (.keeper .ZOPERATIONTIMEOUT),
         ⟨false, false, some ⟨false, false, streamSecond, 0 + 1 + 1⟩, false⟩,
         [], (["/p"], "/p"), 1, 0⟩ := by
  refine ⟨rfl, rfl, rfl, rfl, by decide, by decide, rfl, ?_⟩
  have h := (C10_tryCreate_ephemeral_guard coreAfterFires ⟨false, false, streamSecond, 0⟩
    "/p" "d" implCreateOk [] [] ["/p"] "/p" rfl rfl rfl rfl).1 .Persistent
    (by decide) (by decide) rfl rfl
  simpa [coreAfterFires] using h

end ZkFaultInjection
